import Mathlib

/-!
# migrateFirestore.js: per-record transform and batched writer

A shallow embedding of `importJsonToFirestore` (src/migrateFirestore.js, lines 34-103).

Modelling conventions

* A CSV record (`item`) is the list returned by `Object.entries(item)`: pairs of a
  column name and the raw cell text, the column names pairwise distinct. The rows come
  from `csv-parse` with `columns: true`, which fills a plain object by assignment, so the
  cells are strings and `__proto__` is never an own key.
* Values produced by `JSON.parse` are the trees of `Json`; the carrier `ν` of JS numbers
  is left abstract (they are IEEE doubles in the engine).
* The engine and library primitives the function calls are the fields of `Builtins`:
  `JSON.parse`, `ToBoolean` on numbers, `Number(·)` (which throws a `TypeError` on some
  objects), and the composite `Timestamp.fromDate(new Date(·))`.
* The Firestore client is a `Store`: the calls of lines 90-91, which validate their
  arguments and may throw, and `batch.commit()`, which may reject.
* `firestoreDocData` is a JS object used as a string-keyed map: `Doc.set` is property
  assignment, `Doc.get` is property read (`none` is `undefined`).
* Effects are recorded in `RunState`: the console lines as `Event`s, the documents passed
  to `batch.set`, the batches whose commit resolved, the number of `batch.commit()` calls,
  and the pending exception.
-/

namespace MigrateFirestore

/-! ## Data model -/

/-- Value of an exception travelling through the function (its message). -/
abbrev JsError := String

/-- A value returned by `JSON.parse`, with numbers in `ν`. The members of an object are its
own properties (distinct keys). -/
inductive Json (ν : Type) where
  | null
  | bool (b : Bool)
  | num (n : ν)
  | str (s : String)
  | arr (elems : List (Json ν))
  | obj (members : List (String × Json ν))

/-- A Firestore `Timestamp` (seconds since the epoch and nanoseconds). -/
structure Timestamp where
  seconds : Int
  nanoseconds : Nat

/-- A value stored in a field of `firestoreDocData`: a JS value coming from `JSON.parse`,
`Number(·)` or the raw text, or a `Timestamp` object. -/
inductive FieldVal (ν : Type) where
  | json (j : Json ν)
  | timestamp (t : Timestamp)

/-- The object `firestoreDocData`: its own properties, in creation order. -/
abbrev Doc (ν : Type) := List (String × FieldVal ν)

/-- The entries `Object.entries(item)` of one parsed CSV row. -/
abbrev Record := List (String × String)

/-- Engine and library primitives used by `importJsonToFirestore`. -/
structure Builtins (ν : Type) where
  /-- The call `JSON.parse(text)`; `none` when it throws a `SyntaxError`. -/
  jsonParse : String → Option (Json ν)
  /-- The abstract operation `ToBoolean` on a number (false for zeros and NaN). -/
  numTruthy : ν → Bool
  /-- The call `Number(value)`; an error when the conversion to a primitive throws a
  `TypeError` (an object whose own `toString` is not callable). -/
  toNumber : Json ν → Except JsError ν
  /-- The call `admin.firestore.Timestamp.fromDate(new Date(text))`; `none` when it throws. -/
  toTimestamp : String → Option Timestamp

/-- The Firestore client used by `importJsonToFirestore`. -/
structure Store (ν : Type) where
  /-- Lines 90-91: `db.collection(name).doc()` followed by `batch.set(docRef, data)`, for
  the collection name and the document data; `some e` when one of the two calls throws
  (argument validation). -/
  batchSet : String → Doc ν → Option JsError
  /-- Line 93: `await batch.commit()`, for the number of earlier `commit()` calls and the
  documents of the batch; `some e` when the commit rejects. -/
  batchCommit : Nat → List (Doc ν) → Option JsError

/-- One line written to the console. -/
inductive Event where
  | startBanner
  | sourceFile (path : String)
  | targetCollection (name : String)
  | totalRecords (n : Nat)
  | warnSignupDate (value : String)
  | processedBatch (processed total : Nat)
  | migrationComplete (processed : Nat) (name : String)
  | errorBanner
  | errorDetail (e : JsError)

/-! ## Objects as maps -/

/-- Property read `doc[key]`; `none` is `undefined`. -/
def Doc.get {ν : Type} : Doc ν → String → Option (FieldVal ν)
  | [], _ => none
  | (k, v) :: rest, key => if k = key then some v else Doc.get rest key

/-- Property assignment `doc[key] = v`. -/
def Doc.set {ν : Type} : Doc ν → String → FieldVal ν → Doc ν
  | [], key, v => [(key, v)]
  | (k, w) :: rest, key, v => if k = key then (k, v) :: rest else (k, w) :: Doc.set rest key v

/-- Lookup among the own properties of a parsed object. -/
def members_get {ν : Type} : List (String × Json ν) → String → Option (Json ν)
  | [], _ => none
  | (k, v) :: rest, key => if k = key then some v else members_get rest key

/-- Property read `parsed.name` on a value with `typeof parsed === 'object'`: an own
property of an object, `undefined` on arrays and everything else. -/
def Json.prop {ν : Type} (parsed : Json ν) (name : String) : Option (Json ν) :=
  match parsed with
  | Json.obj members => members_get members name
  | _ => none

/-- The abstract operation `ToBoolean` on a parsed value. -/
def Json.truthy {ν : Type} (B : Builtins ν) : Json ν → Bool
  | Json.null => false
  | Json.bool b => b
  | Json.num n => B.numTruthy n
  | Json.str s => decide (s ≠ "")
  | Json.arr _ => true
  | Json.obj _ => true

/-- The abstract operation `ToBoolean` on a property read (`undefined` is falsy). -/
def truthyProp {ν : Type} (B : Builtins ν) : Option (Json ν) → Bool
  | none => false
  | some j => Json.truthy B j

/-- The test `typeof parsed === 'object'`. -/
def Json.isObjectType {ν : Type} : Json ν → Bool
  | Json.null => true
  | Json.arr _ => true
  | Json.obj _ => true
  | _ => false

/-! ## Per-record transform (lines 62-88) -/

/-- Lines 65-70: `JSON.parse(value)`, falling back to the raw text when it throws. -/
def parseValue {ν : Type} (B : Builtins ν) (value : String) : Json ν :=
  match B.jsonParse value with
  | some parsed => parsed
  | none => Json.str value

/-- Line 72: the guard
`parsed && typeof parsed === 'object' && (parsed.S || parsed.N || parsed.BOOL)`. -/
def isTagged {ν : Type} (B : Builtins ν) (parsed : Json ν) : Bool :=
  Json.truthy B parsed && Json.isObjectType parsed &&
    (truthyProp B (parsed.prop "S") || truthyProp B (parsed.prop "N")
      || truthyProp B (parsed.prop "BOOL"))

/-- Lines 72-79: the value assigned to `firestoreDocData[key]`, or the exception thrown by
`Number(parsed.N)` at line 74. -/
def unwrapParsed {ν : Type} (B : Builtins ν) (parsed : Json ν) : Except JsError (FieldVal ν) :=
  if isTagged B parsed then
    match parsed.prop "S" with
    | some s => Except.ok (FieldVal.json s)
    | none =>
      match parsed.prop "N" with
      | some n =>
        match B.toNumber n with
        | Except.ok m => Except.ok (FieldVal.json (Json.num m))
        | Except.error e => Except.error e
      | none =>
        match parsed.prop "BOOL" with
        | some b => Except.ok (FieldVal.json b)
        | none => Except.ok (FieldVal.json parsed)
  else
    Except.ok (FieldVal.json parsed)

/-- Lines 63-80: the loop over `Object.entries(item)`, threading `firestoreDocData`; an
exception of line 74 leaves the loop. -/
def fieldLoop {ν : Type} (B : Builtins ν) : Record → Doc ν → Except JsError (Doc ν)
  | [], doc => Except.ok doc
  | (key, value) :: rest, doc =>
    if value = "" then fieldLoop B rest doc
    else
      match unwrapParsed B (parseValue B value) with
      | Except.error e => Except.error e
      | Except.ok v => fieldLoop B rest (Doc.set doc key v)

/-- Result of the per-record transform: the document and the warnings it logged. -/
structure Transformed (ν : Type) where
  doc : Doc ν
  warnings : List Event

/-- Lines 82-88: conversion of a non-empty string `signupDate` to a `Timestamp`; on an
exception the field is left alone and a warning is logged. -/
def convertSignupDate {ν : Type} (B : Builtins ν) (doc : Doc ν) : Transformed ν :=
  match Doc.get doc "signupDate" with
  | some (FieldVal.json (Json.str s)) =>
    if s = "" then { doc := doc, warnings := [] }
    else
      match B.toTimestamp s with
      | some t => { doc := Doc.set doc "signupDate" (FieldVal.timestamp t), warnings := [] }
      | none => { doc := doc, warnings := [Event.warnSignupDate s] }
  | _ => { doc := doc, warnings := [] }

/-- Lines 62-88: the per-record transform building `firestoreDocData` from `item`: the
document and the warnings, or the exception that left the field loop. -/
def firestoreDocData {ν : Type} (B : Builtins ν) (item : Record) :
    Except JsError (Transformed ν) :=
  match fieldLoop B item [] with
  | Except.error e => Except.error e
  | Except.ok doc => Except.ok (convertSignupDate B doc)

/-! ## Batched writer (lines 49-98) -/

/-- Line 51. -/
def batchSize : Nat := 400

/-- The call `xs.slice(start, stop)` for non-negative integer bounds. -/
def slice {α : Type} (xs : List α) (start stop : Nat) : List α :=
  (xs.drop start).take (stop - start)

/-- Effects accumulated by a run. -/
structure RunState (ν : Type) where
  /-- Console output, oldest line first. -/
  log : List Event
  /-- Documents accepted by `batch.set`, in call order, over all batches. -/
  staged : List (Doc ν)
  /-- Batches whose `commit()` resolved, in commit order. -/
  committed : List (List (Doc ν))
  /-- Number of `batch.commit()` calls made so far. -/
  attempts : Nat
  /-- The variable `recordsProcessed`. -/
  recordsProcessed : Nat
  /-- The exception in flight, if any. -/
  thrown : Option JsError

/-- Lines 58-92: the loop over `currentBatchItems`, threading the documents of the batch
under construction. It ends with the batch, or with the exception thrown by the transform
(line 74) or by lines 90-91; the warnings logged and the documents staged before the
exception stay in the state. -/
def stageLoop {ν : Type} (B : Builtins ν) (store : Store ν) (targetCollectionName : String) :
    List Record → List (Doc ν) → RunState ν → Except JsError (List (Doc ν)) × RunState ν
  | [], batch, st => (Except.ok batch, st)
  | item :: rest, batch, st =>
    match firestoreDocData B item with
    | Except.error e => (Except.error e, st)
    | Except.ok out =>
      match store.batchSet targetCollectionName out.doc with
      | some e => (Except.error e, { st with log := st.log ++ out.warnings })
      | none =>
        stageLoop B store targetCollectionName rest (batch ++ [out.doc])
          { st with log := st.log ++ out.warnings, staged := st.staged ++ [out.doc] }

/-- Lines 54-96: the batch loop from index `i`. An exception thrown while staging or a
rejected commit leaves the loop with the exception in flight. -/
def batchLoop {ν : Type} (B : Builtins ν) (store : Store ν) (targetCollectionName : String)
    (items : List Record) (i : Nat) (st : RunState ν) : RunState ν :=
  if i < items.length then
    let currentBatchItems := slice items i (i + batchSize)
    match stageLoop B store targetCollectionName currentBatchItems [] st with
    | (Except.error e, st1) => { st1 with thrown := some e }
    | (Except.ok batch, st1) =>
      match store.batchCommit st1.attempts batch with
      | some e => { st1 with attempts := st1.attempts + 1, thrown := some e }
      | none =>
        let processed := st1.recordsProcessed + currentBatchItems.length
        batchLoop B store targetCollectionName items (i + batchSize)
          { st1 with
            log := st1.log ++ [Event.processedBatch processed items.length]
            committed := st1.committed ++ [batch]
            attempts := st1.attempts + 1
            recordsProcessed := processed }
  else st
termination_by items.length - i
decreasing_by simp only [batchSize]; omega

/-- Lines 44-52: the four opening console lines and `recordsProcessed = 0`; nothing has
been staged and no commit has been attempted. -/
def initialState {ν : Type} (jsonFilePath targetCollectionName : String) (n : Nat) :
    RunState ν :=
  { log := [Event.startBanner, Event.sourceFile jsonFilePath,
      Event.targetCollection targetCollectionName, Event.totalRecords n]
    staged := []
    committed := []
    attempts := 0
    recordsProcessed := 0
    thrown := none }

/-- Lines 44-98: the body of the `try` block once the rows are loaded. -/
def migrationBody {ν : Type} (B : Builtins ν) (store : Store ν)
    (jsonFilePath targetCollectionName : String) (items : List Record) : RunState ν :=
  let st := batchLoop B store targetCollectionName items 0
    (initialState jsonFilePath targetCollectionName items.length)
  match st.thrown with
  | some _ => st
  | none =>
    { st with log := st.log ++ [Event.migrationComplete st.recordsProcessed targetCollectionName] }

/-- Lines 36-42: reading and parsing the file; an exception leaves the `try` block before
anything is logged. -/
def tryBlock {ν : Type} (B : Builtins ν) (store : Store ν)
    (jsonFilePath targetCollectionName : String) (loaded : Except JsError (List Record)) :
    RunState ν :=
  match loaded with
  | Except.error e =>
    { log := [], staged := [], committed := [], attempts := 0, recordsProcessed := 0,
      thrown := some e }
  | Except.ok items => migrationBody B store jsonFilePath targetCollectionName items

/-- Lines 34-103: `importJsonToFirestore`. The `catch` clause logs the exception and the
function returns normally, so the final state carries no exception. -/
def importJsonToFirestore {ν : Type} (B : Builtins ν) (store : Store ν)
    (jsonFilePath targetCollectionName : String) (loaded : Except JsError (List Record)) :
    RunState ν :=
  let st := tryBlock B store jsonFilePath targetCollectionName loaded
  match st.thrown with
  | none => st
  | some error =>
    { st with log := st.log ++ [Event.errorBanner, Event.errorDetail error], thrown := none }

/-! ## Closed forms used in the statements -/

/-- The per-record transform returns `out` for `item`. -/
def TransformsTo {ν : Type} (B : Builtins ν) (item : Record) (out : Transformed ν) : Prop :=
  firestoreDocData B item = Except.ok out

/-- The call `Number(parsed.N)` of line 74 throws `e` on some column of the record. -/
def NumberThrows {ν : Type} (B : Builtins ν) (item : Record) (e : JsError) : Prop :=
  ∃ key value n, (key, value) ∈ item ∧ value ≠ ""
    ∧ (parseValue B value).prop "N" = some n ∧ B.toNumber n = Except.error e

/-- Group number `t` (counted from 0) of a list: `xs.slice(400 * t, 400 * t + 400)`. -/
def batchItems {α : Type} (xs : List α) (t : Nat) : List α :=
  slice xs (batchSize * t) (batchSize * t + batchSize)

/-- Documents of batch number `t`, for the transformed records `outs`. -/
def batchDocs {ν : Type} (outs : List (Transformed ν)) (t : Nat) : List (Doc ν) :=
  (batchItems outs t).map Transformed.doc

/-- Warnings logged while transforming a group of records. -/
def warningsOf {ν : Type} (outs : List (Transformed ν)) : List Event :=
  (outs.map Transformed.warnings).flatten

/-- Number of loop iterations for `n` records: the least `c` with `n ≤ 400 * c`. -/
def batchCount (n : Nat) : Nat := (n + (batchSize - 1)) / batchSize

/-- Value of `recordsProcessed` after `j` committed batches of a run over `n` records. -/
def processedAfter (n j : Nat) : Nat := min (batchSize * j) n

/-- Console lines of the first `j` iterations of a run over `n` records when the staging
and the commit of each succeeded. -/
def loopLog {ν : Type} (outs : List (Transformed ν)) (n base j : Nat) : List Event :=
  ((List.range j).map (fun t =>
    warningsOf (batchItems outs t)
      ++ [Event.processedBatch (base + processedAfter n (t + 1)) n])).flatten

/-- State of the loop after `j` iterations whose staging and commit succeeded, started in
`st`, for a run over `n` records whose transforms are `outs`. -/
def afterBatches {ν : Type} (outs : List (Transformed ν)) (n : Nat) (st : RunState ν)
    (j : Nat) : RunState ν :=
  { log := st.log ++ loopLog outs n st.recordsProcessed j
    staged := st.staged ++ (outs.take (batchSize * j)).map Transformed.doc
    committed := st.committed ++ (List.range j).map (batchDocs outs)
    attempts := st.attempts + j
    recordsProcessed := st.recordsProcessed + processedAfter n j
    thrown := st.thrown }

/-! ## A sample environment

The values of the primitives at the arguments used in the examples below, tabulated from
ECMAScript (`JSON.parse`, `Number`, `ToBoolean`) and from the Firestore client (`Timestamp`,
`batch.set`).
Numbers are the integers that occur, and NaN. Arguments outside the table do not occur in
the examples. -/

/-- Numbers of the sample environment. -/
inductive SampleNum where
  | int (i : Int)
  | nan

/-- Sample of `JSON.parse`: the listed texts are valid JSON, `hello` and
`2025-01-01T00:00:00Z` are not. -/
def sampleJsonParse (text : String) : Option (Json SampleNum) :=
  if text = "\x7b\"BOOL\":false\x7d" then some (Json.obj [("BOOL", Json.bool false)])
  else if text = "\x7b\"BOOL\":true\x7d" then some (Json.obj [("BOOL", Json.bool true)])
  else if text = "\x7b\"S\":\"\"\x7d" then some (Json.obj [("S", Json.str "")])
  else if text = "\x7b\"S\":\"abc\"\x7d" then some (Json.obj [("S", Json.str "abc")])
  else if text = "\x7b\"S\":\"not a date\"\x7d" then
    some (Json.obj [("S", Json.str "not a date")])
  else if text = "\x7b\"S\":\"2025-01-01T00:00:00Z\"\x7d" then
    some (Json.obj [("S", Json.str "2025-01-01T00:00:00Z")])
  else if text = "\x7b\"N\":\"\"\x7d" then some (Json.obj [("N", Json.str "")])
  else if text = "\x7b\"N\":\"42\"\x7d" then some (Json.obj [("N", Json.str "42")])
  else if text = "\x7b\"M\":\x7b\x7d\x7d" then some (Json.obj [("M", Json.obj [])])
  else if text = "\x7b\"N\":\x7b\"toString\":0\x7d\x7d" then
    some (Json.obj [("N", Json.obj [("toString", Json.num (SampleNum.int 0))])])
  else if text = "123" then some (Json.num (SampleNum.int 123))
  else none

/-- Sample of `Number(·)`. On an object the conversion to a primitive tries `valueOf`, which
returns the object, then `toString`: an own `toString` member of a parsed object is never
callable, which is a `TypeError`; without one the text is `[object Object]`, giving NaN. -/
def sampleToNumber : Json SampleNum → Except JsError SampleNum
  | Json.null => Except.ok (SampleNum.int 0)
  | Json.bool true => Except.ok (SampleNum.int 1)
  | Json.bool false => Except.ok (SampleNum.int 0)
  | Json.num n => Except.ok n
  | Json.str s =>
    if s = "" then Except.ok (SampleNum.int 0)
    else if s = "42" then Except.ok (SampleNum.int 42)
    else Except.ok SampleNum.nan
  | Json.arr [] => Except.ok (SampleNum.int 0)
  | Json.arr (_ :: _) => Except.ok SampleNum.nan
  | Json.obj members =>
    match members_get members "toString" with
    | some _ => Except.error "TypeError: Cannot convert object to primitive value"
    | none => Except.ok SampleNum.nan

/-- Sample of `ToBoolean` on numbers. -/
def sampleNumTruthy : SampleNum → Bool
  | SampleNum.int i => decide (i ≠ 0)
  | SampleNum.nan => false

/-- Sample of `Timestamp.fromDate(new Date(·))`: midnight UTC of 1 January 2025 is
1735689600 seconds after the epoch; the other texts give an invalid date, which
`Timestamp.fromDate` rejects. -/
def sampleToTimestamp (text : String) : Option Timestamp :=
  if text = "2025-01-01T00:00:00Z" then some { seconds := 1735689600, nanoseconds := 0 }
  else none

/-- The sample environment. -/
def sampleBuiltins : Builtins SampleNum :=
  { jsonParse := sampleJsonParse
    numTruthy := sampleNumTruthy
    toNumber := sampleToNumber
    toTimestamp := sampleToTimestamp }

/-- Sample of lines 90-91: `batch.set` rejects a document with an empty field name. -/
def sampleBatchSet (_targetCollectionName : String) (doc : Doc SampleNum) : Option JsError :=
  match Doc.get doc "" with
  | some _ => some "Element at index 0 should not be an empty string."
  | none => none

/-- A store in which every commit resolves. -/
def resolvingStore : Store SampleNum :=
  { batchSet := sampleBatchSet
    batchCommit := fun _ _ => none }

/-- A store in which every commit rejects. -/
def rejectingStore : Store SampleNum :=
  { batchSet := sampleBatchSet
    batchCommit := fun _ _ => some "DEADLINE_EXCEEDED" }

/-- A store in which the first commit resolves and the later ones reject. -/
def secondCommitRejectingStore : Store SampleNum :=
  { batchSet := sampleBatchSet
    batchCommit := fun t _ => if t = 0 then none else some "DEADLINE_EXCEEDED" }

/-- The document built from the sample row with the single cell id = 123. -/
def sampleOut : Transformed SampleNum :=
  { doc := [("id", FieldVal.json (Json.num (SampleNum.int 123)))], warnings := [] }

/-! ## Objects as maps: lemmas -/

theorem Doc.get_set_self {ν : Type} (doc : Doc ν) (key : String) (v : FieldVal ν) :
    Doc.get (Doc.set doc key v) key = some v := by
  induction doc with
  | nil => simp [Doc.set, Doc.get]
  | cons p rest ih =>
    obtain ⟨k, w⟩ := p
    by_cases h : k = key
    · simp [Doc.set, Doc.get, h]
    · simp [Doc.set, Doc.get, h, ih]

theorem Doc.get_set_ne {ν : Type} (doc : Doc ν) (key other : String) (v : FieldVal ν)
    (h : other ≠ key) : Doc.get (Doc.set doc key v) other = Doc.get doc other := by
  induction doc with
  | nil => simp [Doc.set, Doc.get, Ne.symm h]
  | cons p rest ih =>
    obtain ⟨k, w⟩ := p
    by_cases hk : k = key
    · subst hk
      simp [Doc.set, Doc.get, Ne.symm h]
    · by_cases ho : k = other
      · subst ho
        simp [Doc.set, Doc.get, hk]
      · simp [Doc.set, Doc.get, hk, ho, ih]

/-! ## The field loop -/

theorem fieldLoop_cons_skip {ν : Type} (B : Builtins ν) (key : String) (rest : Record)
    (doc : Doc ν) : fieldLoop B ((key, "") :: rest) doc = fieldLoop B rest doc := by
  simp [fieldLoop]

theorem fieldLoop_cons_ok {ν : Type} (B : Builtins ν) (key value : String) (rest : Record)
    (doc : Doc ν) (v : FieldVal ν) (hv : value ≠ "")
    (hun : unwrapParsed B (parseValue B value) = Except.ok v) :
    fieldLoop B ((key, value) :: rest) doc = fieldLoop B rest (Doc.set doc key v) := by
  simp [fieldLoop, hv, hun]

theorem fieldLoop_cons_error {ν : Type} (B : Builtins ν) (key value : String) (rest : Record)
    (doc : Doc ν) (e : JsError) (hv : value ≠ "")
    (hun : unwrapParsed B (parseValue B value) = Except.error e) :
    fieldLoop B ((key, value) :: rest) doc = Except.error e := by
  simp [fieldLoop, hv, hun]

theorem fieldLoop_get_of_skipped {ν : Type} (B : Builtins ν) (item : Record) (key : String)
    (h : ∀ value, (key, value) ∈ item → value = "") (doc out : Doc ν)
    (hout : fieldLoop B item doc = Except.ok out) :
    Doc.get out key = Doc.get doc key := by
  induction item generalizing doc with
  | nil =>
    simp only [fieldLoop, Except.ok.injEq] at hout
    rw [hout]
  | cons p rest ih =>
    obtain ⟨k, value⟩ := p
    have hrest : ∀ value, (key, value) ∈ rest → value = "" :=
      fun w hw => h w (List.mem_cons_of_mem _ hw)
    by_cases hv : value = ""
    · subst hv
      rw [fieldLoop_cons_skip] at hout
      exact ih hrest doc hout
    · have hk : key ≠ k := by
        intro hk
        exact hv (h value (by simp [hk]))
      cases hun : unwrapParsed B (parseValue B value) with
      | error e =>
        rw [fieldLoop_cons_error B k value rest doc e hv hun] at hout
        exact Except.noConfusion hout
      | ok v =>
        rw [fieldLoop_cons_ok B k value rest doc v hv hun] at hout
        rw [ih hrest _ hout, Doc.get_set_ne _ _ _ _ hk]

theorem fieldLoop_get_of_mem {ν : Type} (B : Builtins ν) (item : Record) (key value : String)
    (hnd : (item.map Prod.fst).Nodup) (hmem : (key, value) ∈ item) (hv : value ≠ "")
    (doc out : Doc ν) (hout : fieldLoop B item doc = Except.ok out) :
    ∃ v, unwrapParsed B (parseValue B value) = Except.ok v ∧ Doc.get out key = some v := by
  induction item generalizing doc with
  | nil => simp at hmem
  | cons p rest ih =>
    obtain ⟨k, w⟩ := p
    simp only [List.map_cons, List.nodup_cons] at hnd
    rcases List.mem_cons.mp hmem with heq | hin
    · obtain ⟨hk, hw⟩ := Prod.mk.inj heq
      subst hk hw
      have hnot : ∀ u, (key, u) ∈ rest → u = "" := by
        intro u hu
        exact absurd (List.mem_map_of_mem Prod.fst hu) hnd.1
      cases hun : unwrapParsed B (parseValue B value) with
      | error e =>
        rw [fieldLoop_cons_error B key value rest doc e hv hun] at hout
        exact Except.noConfusion hout
      | ok v =>
        rw [fieldLoop_cons_ok B key value rest doc v hv hun] at hout
        refine ⟨v, rfl, ?_⟩
        rw [fieldLoop_get_of_skipped B rest key hnot _ out hout, Doc.get_set_self]
    · by_cases hw : w = ""
      · subst hw
        rw [fieldLoop_cons_skip] at hout
        exact ih hnd.2 hin doc hout
      · cases hun : unwrapParsed B (parseValue B w) with
        | error e =>
          rw [fieldLoop_cons_error B k w rest doc e hw hun] at hout
          exact Except.noConfusion hout
        | ok v =>
          rw [fieldLoop_cons_ok B k w rest doc v hw hun] at hout
          exact ih hnd.2 hin _ hout

/-- The field loop throws only what `unwrapParsed` throws on one of the columns. -/
theorem fieldLoop_error_cause {ν : Type} (B : Builtins ν) (item : Record) (doc : Doc ν)
    (e : JsError) (h : fieldLoop B item doc = Except.error e) :
    ∃ key value, (key, value) ∈ item ∧ value ≠ ""
      ∧ unwrapParsed B (parseValue B value) = Except.error e := by
  induction item generalizing doc with
  | nil => simp [fieldLoop] at h
  | cons p rest ih =>
    obtain ⟨k, w⟩ := p
    by_cases hw : w = ""
    · subst hw
      rw [fieldLoop_cons_skip] at h
      obtain ⟨key, value, hmem, hv, hun⟩ := ih doc h
      exact ⟨key, value, List.mem_cons_of_mem _ hmem, hv, hun⟩
    · cases hun : unwrapParsed B (parseValue B w) with
      | error e2 =>
        rw [fieldLoop_cons_error B k w rest doc e2 hw hun] at h
        have he : e2 = e := Except.error.inj h
        subst he
        exact ⟨k, w, List.mem_cons_self _ _, hw, hun⟩
      | ok v =>
        rw [fieldLoop_cons_ok B k w rest doc v hw hun] at h
        obtain ⟨key, value, hmem, hv, hun2⟩ := ih _ h
        exact ⟨key, value, List.mem_cons_of_mem _ hmem, hv, hun2⟩

/-- The unwrapping throws only what `Number(parsed.N)` throws. -/
theorem unwrapParsed_error_cause {ν : Type} (B : Builtins ν) (parsed : Json ν) (e : JsError)
    (h : unwrapParsed B parsed = Except.error e) :
    ∃ n, parsed.prop "N" = some n ∧ B.toNumber n = Except.error e := by
  unfold unwrapParsed at h
  split at h
  · split at h
    · exact Except.noConfusion h
    · split at h
      · next n hn =>
        split at h
        · exact Except.noConfusion h
        · next e2 he =>
          have : e2 = e := Except.error.inj h
          subst this
          exact ⟨n, hn, he⟩
      · split at h <;> exact Except.noConfusion h
  · exact Except.noConfusion h

/-- The transform throws only when `Number(parsed.N)` throws on one of the columns. -/
theorem firestoreDocData_error_cause {ν : Type} (B : Builtins ν) (item : Record)
    (e : JsError) (h : firestoreDocData B item = Except.error e) : NumberThrows B item e := by
  unfold firestoreDocData at h
  cases hloop : fieldLoop B item [] with
  | ok doc =>
    rw [hloop] at h
    exact Except.noConfusion h
  | error e2 =>
    rw [hloop] at h
    have he : e2 = e := Except.error.inj h
    subst he
    obtain ⟨key, value, hmem, hv, hun⟩ := fieldLoop_error_cause B item [] e2 hloop
    obtain ⟨n, hn, hnum⟩ := unwrapParsed_error_cause B _ e2 hun
    exact ⟨key, value, n, hmem, hv, hn, hnum⟩

/-- A returned transform is the signupDate step applied to the result of the field loop. -/
theorem firestoreDocData_ok_iff {ν : Type} (B : Builtins ν) (item : Record)
    (out : Transformed ν) :
    firestoreDocData B item = Except.ok out
      ↔ ∃ doc, fieldLoop B item [] = Except.ok doc ∧ out = convertSignupDate B doc := by
  unfold firestoreDocData
  cases hloop : fieldLoop B item [] with
  | ok doc =>
    constructor
    · intro h
      exact ⟨doc, rfl, (Except.ok.inj h).symm⟩
    · rintro ⟨doc2, hdoc, hout⟩
      have : doc = doc2 := Except.ok.inj hdoc
      subst this
      rw [hout]
  | error e =>
    constructor
    · intro h
      exact Except.noConfusion h
    · rintro ⟨doc2, hdoc, _⟩
      exact Except.noConfusion hdoc

/-! ## The signupDate step -/

theorem convertSignupDate_get_other {ν : Type} (B : Builtins ν) (doc : Doc ν) (key : String)
    (h : key ≠ "signupDate") :
    Doc.get (convertSignupDate B doc).doc key = Doc.get doc key := by
  unfold convertSignupDate
  split
  · split
    · rfl
    · split
      · exact Doc.get_set_ne _ _ _ _ h
      · rfl
  · rfl

theorem convertSignupDate_of_not_string {ν : Type} (B : Builtins ν) (doc : Doc ν)
    (h : ∀ s, Doc.get doc "signupDate" ≠ some (FieldVal.json (Json.str s))) :
    convertSignupDate B doc = { doc := doc, warnings := [] } := by
  unfold convertSignupDate
  split
  · next s heq => exact absurd heq (h s)
  · rfl

/-- The signupDate step on a document whose signupDate is a non-empty string. -/
theorem convertSignupDate_of_string {ν : Type} (B : Builtins ν) (doc : Doc ν) (s : String)
    (hs : s ≠ "") (h : Doc.get doc "signupDate" = some (FieldVal.json (Json.str s))) :
    convertSignupDate B doc
      = match B.toTimestamp s with
        | some t => { doc := Doc.set doc "signupDate" (FieldVal.timestamp t), warnings := [] }
        | none => { doc := doc, warnings := [Event.warnSignupDate s] } := by
  simp [convertSignupDate, h, hs]

theorem convertSignupDate_warnings {ν : Type} (B : Builtins ν) (doc : Doc ν) (ev : Event)
    (hev : ev ∈ (convertSignupDate B doc).warnings) : ∃ s, ev = Event.warnSignupDate s := by
  unfold convertSignupDate at hev
  split at hev
  · split at hev
    · simp at hev
    · split at hev
      · simp at hev
      · exact ⟨_, by simpa using hev⟩
  · simp at hev

/-! ## Unwrapping of tagged values -/

theorem unwrapParsed_bool_tag {ν : Type} (B : Builtins ν) (z : Bool) :
    unwrapParsed B (Json.obj [("BOOL", Json.bool z)])
      = Except.ok (FieldVal.json
          (if z then Json.bool true else Json.obj [("BOOL", Json.bool false)])) := by
  cases z <;>
    simp [unwrapParsed, isTagged, Json.truthy, Json.isObjectType, Json.prop, members_get,
      truthyProp]

theorem unwrapParsed_string_tag {ν : Type} (B : Builtins ν) (x : String) :
    unwrapParsed B (Json.obj [("S", Json.str x)])
      = Except.ok (FieldVal.json
          (if x = "" then Json.obj [("S", Json.str "")] else Json.str x)) := by
  by_cases hx : x = "" <;>
    simp [unwrapParsed, isTagged, Json.truthy, Json.isObjectType, Json.prop, members_get,
      truthyProp, hx]

theorem unwrapParsed_number_tag_empty {ν : Type} (B : Builtins ν) :
    unwrapParsed B (Json.obj [("N", Json.str "")])
      = Except.ok (FieldVal.json (Json.obj [("N", Json.str "")])) := by
  simp [unwrapParsed, isTagged, Json.truthy, Json.isObjectType, Json.prop, members_get,
    truthyProp]

theorem unwrapParsed_number_tag {ν : Type} (B : Builtins ν) (y : String) (hy : y ≠ "") :
    unwrapParsed B (Json.obj [("N", Json.str y)])
      = match B.toNumber (Json.str y) with
        | Except.ok m => Except.ok (FieldVal.json (Json.num m))
        | Except.error e => Except.error e := by
  simp [unwrapParsed, isTagged, Json.truthy, Json.isObjectType, Json.prop, members_get,
    truthyProp, hy]

theorem unwrapParsed_untagged {ν : Type} (B : Builtins ν) (parsed : Json ν)
    (hS : parsed.prop "S" = none) (hN : parsed.prop "N" = none)
    (hB : parsed.prop "BOOL" = none) :
    unwrapParsed B parsed = Except.ok (FieldVal.json parsed) := by
  simp [unwrapParsed, isTagged, truthyProp, hS, hN, hB]

theorem parseValue_of_parsed {ν : Type} (B : Builtins ν) (value : String) (parsed : Json ν)
    (h : B.jsonParse value = some parsed) : parseValue B value = parsed := by
  simp [parseValue, h]

theorem parseValue_of_invalid {ν : Type} (B : Builtins ν) (value : String)
    (h : B.jsonParse value = none) : parseValue B value = Json.str value := by
  simp [parseValue, h]

/-- Field of a returned document for a record entry that is not skipped: before the
signupDate step it holds the unwrapped value. -/
theorem firestoreDocData_get_before_date {ν : Type} (B : Builtins ν) (item : Record)
    (key value : String) (out : Transformed ν) (hout : firestoreDocData B item = Except.ok out)
    (hnd : (item.map Prod.fst).Nodup) (hmem : (key, value) ∈ item) (hv : value ≠ "") :
    ∃ doc v, fieldLoop B item [] = Except.ok doc ∧ out = convertSignupDate B doc
      ∧ unwrapParsed B (parseValue B value) = Except.ok v ∧ Doc.get doc key = some v := by
  obtain ⟨doc, hdoc, hconv⟩ := (firestoreDocData_ok_iff B item out).mp hout
  obtain ⟨v, hun, hget⟩ := fieldLoop_get_of_mem B item key value hnd hmem hv [] doc hdoc
  exact ⟨doc, v, hdoc, hconv, hun, hget⟩

/-- Field of a returned document for a record entry that is not skipped, when the value
assigned in the field loop is not a string: the signupDate step leaves it alone. -/
theorem firestoreDocData_get_of_not_string {ν : Type} (B : Builtins ν) (item : Record)
    (key value : String) (out : Transformed ν) (v : FieldVal ν)
    (hout : firestoreDocData B item = Except.ok out)
    (hnd : (item.map Prod.fst).Nodup) (hmem : (key, value) ∈ item) (hv : value ≠ "")
    (hun : unwrapParsed B (parseValue B value) = Except.ok v)
    (hns : ∀ s, v ≠ FieldVal.json (Json.str s)) :
    Doc.get out.doc key = some v := by
  obtain ⟨doc, v2, _, hconv, hun2, hget⟩ :=
    firestoreDocData_get_before_date B item key value out hout hnd hmem hv
  rw [hun] at hun2
  have hv2 : v = v2 := Except.ok.inj hun2
  subst hv2
  by_cases hk : key = "signupDate"
  · subst hk
    have hc : convertSignupDate B doc = { doc := doc, warnings := [] } := by
      apply convertSignupDate_of_not_string
      intro s hs
      rw [hget] at hs
      exact hns s (Option.some.inj hs)
    rw [hconv, hc]
    exact hget
  · rw [hconv, convertSignupDate_get_other B _ key hk]
    exact hget

/-- Field of a returned document for a record entry that is not skipped, under a column
name other than signupDate. -/
theorem firestoreDocData_get_of_other {ν : Type} (B : Builtins ν) (item : Record)
    (key value : String) (out : Transformed ν) (v : FieldVal ν)
    (hout : firestoreDocData B item = Except.ok out) (hk : key ≠ "signupDate")
    (hnd : (item.map Prod.fst).Nodup) (hmem : (key, value) ∈ item) (hv : value ≠ "")
    (hun : unwrapParsed B (parseValue B value) = Except.ok v) :
    Doc.get out.doc key = some v := by
  obtain ⟨doc, v2, _, hconv, hun2, hget⟩ :=
    firestoreDocData_get_before_date B item key value out hout hnd hmem hv
  rw [hun] at hun2
  have hv2 : v = v2 := Except.ok.inj hun2
  subst hv2
  rw [hconv, convertSignupDate_get_other B _ key hk]
  exact hget

/-- In a record with distinct column names, a column name has one raw value. -/
theorem record_value_unique (item : Record) (key v w : String)
    (hnd : (item.map Prod.fst).Nodup) (hv : (key, v) ∈ item) (hw : (key, w) ∈ item) :
    v = w := by
  induction item with
  | nil => simp at hv
  | cons p rest ih =>
    simp only [List.map_cons, List.nodup_cons] at hnd
    rcases List.mem_cons.mp hv with h1 | h1 <;> rcases List.mem_cons.mp hw with h2 | h2
    · rw [← h1] at h2
      exact (Prod.mk.inj h2).2.symm ▸ rfl
    · subst h1
      exact absurd (List.mem_map_of_mem Prod.fst h2) hnd.1
    · subst h2
      exact absurd (List.mem_map_of_mem Prod.fst h1) hnd.1
    · exact ih hnd.2 h1 h2

/-- The exception path of line 74 on a sample row: the payload of N is an object with an
own `toString` member, `Number` throws and the transform returns no document. -/
theorem firestoreDocData_number_throws_sample :
    firestoreDocData sampleBuiltins
        [("n", "\x7b\"N\":\x7b\"toString\":0\x7d\x7d"), ("id", "123")]
      = Except.error "TypeError: Cannot convert object to primitive value" := rfl

/-! ## Claims on the per-record transform -/

/-- C1: for a record whose field `k` holds the text of the JSON object with the single
member BOOL = z, every document the transform returns has in field `k` the boolean `true`
when z is true, but when z is false the wrapping object (BOOL = false), not the boolean
`false`: the guard of line 72 tests the truthiness of `parsed.BOOL`. The transform returns
a document unless `Number(parsed.N)` throws on some column. -/
theorem C1_bool_tag_field {ν : Type} (B : Builtins ν) (item : Record) (k v : String)
    (z : Bool) (hnd : (item.map Prod.fst).Nodup) (hmem : (k, v) ∈ item) (hv : v ≠ "")
    (hparse : B.jsonParse v = some (Json.obj [("BOOL", Json.bool z)])) :
    (∀ out, firestoreDocData B item = Except.ok out →
        Doc.get out.doc k
          = some (FieldVal.json
              (if z then Json.bool true else Json.obj [("BOOL", Json.bool false)])))
    ∧ (∀ e, firestoreDocData B item = Except.error e → NumberThrows B item e) := by
  refine ⟨?_, firestoreDocData_error_cause B item⟩
  intro out hout
  have hun : unwrapParsed B (parseValue B v)
      = Except.ok (FieldVal.json
          (if z then Json.bool true else Json.obj [("BOOL", Json.bool false)])) := by
    rw [parseValue_of_parsed B v _ hparse, unwrapParsed_bool_tag]
  apply firestoreDocData_get_of_not_string B item k v out _ hout hnd hmem hv hun
  intro s
  cases z <;> simp

/-- Witness of C1 at the failing input: the cell text of BOOL = false yields the wrapping
object. -/
theorem C1_bool_tag_field_witness :
    firestoreDocData sampleBuiltins [("active", "\x7b\"BOOL\":false\x7d")]
        = Except.ok { doc := [("active", FieldVal.json (Json.obj [("BOOL", Json.bool false)]))],
                      warnings := [] }
      ∧ Doc.get ([("active", FieldVal.json (Json.obj [("BOOL", Json.bool false)]))]
          : Doc SampleNum) "active"
        = some (FieldVal.json (Json.obj [("BOOL", Json.bool false)])) :=
  ⟨rfl, (C1_bool_tag_field sampleBuiltins [("active", "\x7b\"BOOL\":false\x7d")] "active"
    "\x7b\"BOOL\":false\x7d" false (by simp) (by simp) (by decide) rfl).1
    { doc := [("active", FieldVal.json (Json.obj [("BOOL", Json.bool false)]))],
      warnings := [] } rfl⟩

/-- C2: for a column name `k` other than signupDate and a record whose field `k` holds the
text of the JSON object with the single member S = x, every document the transform returns
has in field `k` the string `x` when `x` is not empty, but for the empty string the
wrapping object (S = ""), not the string: the guard of line 72 tests the truthiness of
`parsed.S`. The transform returns a document unless `Number(parsed.N)` throws on some
column. -/
theorem C2_string_tag_field {ν : Type} (B : Builtins ν) (item : Record) (k v x : String)
    (hk : k ≠ "signupDate") (hnd : (item.map Prod.fst).Nodup) (hmem : (k, v) ∈ item)
    (hv : v ≠ "") (hparse : B.jsonParse v = some (Json.obj [("S", Json.str x)])) :
    (∀ out, firestoreDocData B item = Except.ok out →
        Doc.get out.doc k
          = some (FieldVal.json
              (if x = "" then Json.obj [("S", Json.str "")] else Json.str x)))
    ∧ (∀ e, firestoreDocData B item = Except.error e → NumberThrows B item e) := by
  refine ⟨?_, firestoreDocData_error_cause B item⟩
  intro out hout
  have hun : unwrapParsed B (parseValue B v)
      = Except.ok (FieldVal.json
          (if x = "" then Json.obj [("S", Json.str "")] else Json.str x)) := by
    rw [parseValue_of_parsed B v _ hparse, unwrapParsed_string_tag]
  exact firestoreDocData_get_of_other B item k v out _ hout hk hnd hmem hv hun

/-- Witness of C2 at the failing input: the cell text of S = "" yields the wrapping
object. -/
theorem C2_string_tag_field_witness :
    firestoreDocData sampleBuiltins [("nickname", "\x7b\"S\":\"\"\x7d")]
        = Except.ok { doc := [("nickname", FieldVal.json (Json.obj [("S", Json.str "")]))],
                      warnings := [] }
      ∧ Doc.get ([("nickname", FieldVal.json (Json.obj [("S", Json.str "")]))]
          : Doc SampleNum) "nickname"
        = some (FieldVal.json (Json.obj [("S", Json.str "")])) :=
  ⟨rfl, (C2_string_tag_field sampleBuiltins [("nickname", "\x7b\"S\":\"\"\x7d")]
    "nickname" "\x7b\"S\":\"\"\x7d" "" (by decide) (by simp) (by simp) (by decide) rfl).1
    { doc := [("nickname", FieldVal.json (Json.obj [("S", Json.str "")]))],
      warnings := [] } rfl⟩

/-- C3: for a record whose field `k` holds the text of the JSON object with the single
member N = y (a string), every document the transform returns has in field `k` the number
`Number(y)` when `y` is not empty, but for the empty string the wrapping object (N = ""),
not the number: the guard of line 72 tests the truthiness of `parsed.N`. The transform
returns a document unless `Number(parsed.N)` throws on some column. -/
theorem C3_number_tag_field {ν : Type} (B : Builtins ν) (item : Record) (k v y : String)
    (hnd : (item.map Prod.fst).Nodup) (hmem : (k, v) ∈ item) (hv : v ≠ "")
    (hparse : B.jsonParse v = some (Json.obj [("N", Json.str y)])) :
    (∀ out, firestoreDocData B item = Except.ok out →
        (y = "" →
          Doc.get out.doc k = some (FieldVal.json (Json.obj [("N", Json.str "")])))
        ∧ (y ≠ "" →
          ∃ n, B.toNumber (Json.str y) = Except.ok n
            ∧ Doc.get out.doc k = some (FieldVal.json (Json.num n))))
    ∧ (∀ e, firestoreDocData B item = Except.error e → NumberThrows B item e) := by
  refine ⟨?_, firestoreDocData_error_cause B item⟩
  intro out hout
  have hp := parseValue_of_parsed B v _ hparse
  constructor
  · intro hy
    subst hy
    have hun : unwrapParsed B (parseValue B v)
        = Except.ok (FieldVal.json (Json.obj [("N", Json.str "")])) := by
      rw [hp, unwrapParsed_number_tag_empty]
    apply firestoreDocData_get_of_not_string B item k v out _ hout hnd hmem hv hun
    intro s
    simp
  · intro hy
    obtain ⟨doc, w, _, _, hun, _⟩ :=
      firestoreDocData_get_before_date B item k v out hout hnd hmem hv
    rw [hp, unwrapParsed_number_tag B y hy] at hun
    cases hnum : B.toNumber (Json.str y) with
    | error e =>
      rw [hnum] at hun
      exact Except.noConfusion hun
    | ok n =>
      refine ⟨n, rfl, ?_⟩
      have hun2 : unwrapParsed B (parseValue B v) = Except.ok (FieldVal.json (Json.num n)) := by
        rw [hp, unwrapParsed_number_tag B y hy, hnum]
      apply firestoreDocData_get_of_not_string B item k v out _ hout hnd hmem hv hun2
      intro s
      simp

/-- Witness of C3 at the failing input: the cell text of N = "" yields the wrapping
object. -/
theorem C3_number_tag_field_witness :
    firestoreDocData sampleBuiltins [("age", "\x7b\"N\":\"\"\x7d")]
        = Except.ok { doc := [("age", FieldVal.json (Json.obj [("N", Json.str "")]))],
                      warnings := [] }
      ∧ Doc.get ([("age", FieldVal.json (Json.obj [("N", Json.str "")]))]
          : Doc SampleNum) "age"
        = some (FieldVal.json (Json.obj [("N", Json.str "")])) :=
  ⟨rfl, ((C3_number_tag_field sampleBuiltins [("age", "\x7b\"N\":\"\"\x7d")] "age"
    "\x7b\"N\":\"\"\x7d" "" (by simp) (by simp) (by decide) rfl).1
    { doc := [("age", FieldVal.json (Json.obj [("N", Json.str "")]))],
      warnings := [] } rfl).1 rfl⟩

/-- C9: a column whose raw value is the empty string gives no field in the output
document: in every document the transform returns, reading the key yields `undefined`.
The transform returns a document unless `Number(parsed.N)` throws on some column. -/
theorem C9_falsy_field_omitted {ν : Type} (B : Builtins ν) (item : Record) (k : String)
    (hnd : (item.map Prod.fst).Nodup) (hmem : (k, "") ∈ item) :
    (∀ out, firestoreDocData B item = Except.ok out → Doc.get out.doc k = none)
    ∧ (∀ e, firestoreDocData B item = Except.error e → NumberThrows B item e) := by
  refine ⟨?_, firestoreDocData_error_cause B item⟩
  intro out hout
  obtain ⟨doc, hdoc, hconv⟩ := (firestoreDocData_ok_iff B item out).mp hout
  have hskip : ∀ value, (k, value) ∈ item → value = "" :=
    fun value h => record_value_unique item k value "" hnd h hmem
  have hget : Doc.get doc k = none := by
    rw [fieldLoop_get_of_skipped B item k hskip [] doc hdoc]
    rfl
  by_cases hk : k = "signupDate"
  · subst hk
    have hc : convertSignupDate B doc = { doc := doc, warnings := [] } := by
      apply convertSignupDate_of_not_string
      intro s hs
      rw [hget] at hs
      exact Option.noConfusion hs
    rw [hconv, hc]
    exact hget
  · rw [hconv, convertSignupDate_get_other B _ k hk]
    exact hget

/-- Witness of C9: an empty cell between two filled ones. -/
theorem C9_falsy_field_omitted_witness :
    firestoreDocData sampleBuiltins [("id", "123"), ("nickname", ""), ("city", "hello")]
        = Except.ok { doc := [("id", FieldVal.json (Json.num (SampleNum.int 123))),
                              ("city", FieldVal.json (Json.str "hello"))],
                      warnings := [] }
      ∧ Doc.get ([("id", FieldVal.json (Json.num (SampleNum.int 123))),
          ("city", FieldVal.json (Json.str "hello"))] : Doc SampleNum) "nickname" = none :=
  ⟨rfl, (C9_falsy_field_omitted sampleBuiltins
    [("id", "123"), ("nickname", ""), ("city", "hello")] "nickname" (by simp) (by simp)).1
    { doc := [("id", FieldVal.json (Json.num (SampleNum.int 123))),
              ("city", FieldVal.json (Json.str "hello"))],
      warnings := [] } rfl⟩

/-- C7, as found in the code: a non-empty raw value that is not valid JSON is kept as the
raw string in every document the transform returns, except under the column name
signupDate when the text converts to a timestamp, where the field holds that timestamp.
The transform returns a document unless `Number(parsed.N)` throws on some column. -/
theorem C7_invalid_json_field {ν : Type} (B : Builtins ν) (item : Record) (k v : String)
    (hnd : (item.map Prod.fst).Nodup) (hmem : (k, v) ∈ item) (hv : v ≠ "")
    (hparse : B.jsonParse v = none) :
    (∀ out, firestoreDocData B item = Except.ok out →
        Doc.get out.doc k
          = some (if k = "signupDate" then
              (match B.toTimestamp v with
                | some t => FieldVal.timestamp t
                | none => FieldVal.json (Json.str v))
            else FieldVal.json (Json.str v)))
    ∧ (∀ e, firestoreDocData B item = Except.error e → NumberThrows B item e) := by
  refine ⟨?_, firestoreDocData_error_cause B item⟩
  intro out hout
  have hun : unwrapParsed B (parseValue B v) = Except.ok (FieldVal.json (Json.str v)) := by
    rw [parseValue_of_invalid B v hparse]
    exact unwrapParsed_untagged B _ rfl rfl rfl
  by_cases hk : k = "signupDate"
  · subst hk
    obtain ⟨doc, w, _, hconv, hun2, hget⟩ :=
      firestoreDocData_get_before_date B item "signupDate" v out hout hnd hmem hv
    rw [hun] at hun2
    have hw : FieldVal.json (Json.str v) = w := Except.ok.inj hun2
    subst hw
    rw [hconv, convertSignupDate_of_string B _ v hv hget]
    cases ht : B.toTimestamp v with
    | none => simp [hget]
    | some t => simp [Doc.get_set_self]
  · have h := firestoreDocData_get_of_other B item k v out _ hout hk hnd hmem hv hun
    simp [h, hk]

/-- Witness of C7: the text hello under an ordinary column name. -/
theorem C7_invalid_json_field_witness :
    firestoreDocData sampleBuiltins [("city", "hello")]
        = Except.ok { doc := [("city", FieldVal.json (Json.str "hello"))], warnings := [] }
      ∧ Doc.get ([("city", FieldVal.json (Json.str "hello"))] : Doc SampleNum) "city"
        = some (FieldVal.json (Json.str "hello")) :=
  ⟨rfl, (C7_invalid_json_field sampleBuiltins [("city", "hello")] "city" "hello"
    (by simp) (by simp) (by decide) rfl).1
    { doc := [("city", FieldVal.json (Json.str "hello"))], warnings := [] } rfl⟩

/-- Counterexample to C7 as stated: the raw text 2025-01-01T00:00:00Z is not empty and is
not valid JSON, yet under the column name signupDate the output field is a timestamp, not
the raw string. -/
theorem C7_counterexample :
    sampleBuiltins.jsonParse "2025-01-01T00:00:00Z" = none
      ∧ "2025-01-01T00:00:00Z" ≠ ""
      ∧ firestoreDocData sampleBuiltins [("signupDate", "2025-01-01T00:00:00Z")]
          = Except.ok
              { doc := [("signupDate",
                  FieldVal.timestamp { seconds := 1735689600, nanoseconds := 0 })],
                warnings := [] }
      ∧ Doc.get ([("signupDate",
            FieldVal.timestamp { seconds := 1735689600, nanoseconds := 0 })] : Doc SampleNum)
          "signupDate"
          ≠ some (FieldVal.json (Json.str "2025-01-01T00:00:00Z")) := by
  refine ⟨rfl, by decide, rfl, ?_⟩
  simp [Doc.get]

/-- C10, as found in the code: for a column name `k` other than signupDate and a
non-empty raw value that is valid JSON and whose parsed value has none of the properties
S, N, BOOL, every document the transform returns has in field `k` the parsed value, not
the raw string. The transform returns a document unless `Number(parsed.N)` throws on some
column. -/
theorem C10_untagged_json_field {ν : Type} (B : Builtins ν) (item : Record) (k v : String)
    (parsed : Json ν) (hk : k ≠ "signupDate") (hnd : (item.map Prod.fst).Nodup)
    (hmem : (k, v) ∈ item) (hv : v ≠ "") (hparse : B.jsonParse v = some parsed)
    (hS : parsed.prop "S" = none) (hN : parsed.prop "N" = none)
    (hB : parsed.prop "BOOL" = none) :
    (∀ out, firestoreDocData B item = Except.ok out →
        Doc.get out.doc k = some (FieldVal.json parsed))
    ∧ (∀ e, firestoreDocData B item = Except.error e → NumberThrows B item e) := by
  refine ⟨?_, firestoreDocData_error_cause B item⟩
  intro out hout
  have hun : unwrapParsed B (parseValue B v) = Except.ok (FieldVal.json parsed) := by
    rw [parseValue_of_parsed B v _ hparse, unwrapParsed_untagged B parsed hS hN hB]
  exact firestoreDocData_get_of_other B item k v out _ hout hk hnd hmem hv hun

/-- Witness of C10: the text of the object with the single member M, an empty object. -/
theorem C10_untagged_json_field_witness :
    firestoreDocData sampleBuiltins [("meta", "\x7b\"M\":\x7b\x7d\x7d")]
        = Except.ok { doc := [("meta", FieldVal.json (Json.obj [("M", Json.obj [])]))],
                      warnings := [] }
      ∧ Doc.get ([("meta", FieldVal.json (Json.obj [("M", Json.obj [])]))] : Doc SampleNum)
          "meta"
        = some (FieldVal.json (Json.obj [("M", Json.obj [])])) :=
  ⟨rfl, (C10_untagged_json_field sampleBuiltins [("meta", "\x7b\"M\":\x7b\x7d\x7d")]
    "meta" "\x7b\"M\":\x7b\x7d\x7d" (Json.obj [("M", Json.obj [])]) (by decide) (by simp)
    (by simp) (by decide) rfl rfl rfl rfl).1
    { doc := [("meta", FieldVal.json (Json.obj [("M", Json.obj [])]))], warnings := [] } rfl⟩

/-- Counterexample to C10 as stated: the raw text 123 is valid JSON without a tag, and the
output field is the number 123, not the raw string. -/
theorem C10_counterexample :
    sampleBuiltins.jsonParse "123" = some (Json.num (SampleNum.int 123))
      ∧ firestoreDocData sampleBuiltins [("count", "123")]
          = Except.ok { doc := [("count", FieldVal.json (Json.num (SampleNum.int 123)))],
                        warnings := [] }
      ∧ Doc.get ([("count", FieldVal.json (Json.num (SampleNum.int 123)))] : Doc SampleNum)
          "count"
          ≠ some (FieldVal.json (Json.str "123")) := by
  refine ⟨rfl, rfl, ?_⟩
  simp [Doc.get]

/-! ## Slices -/

theorem slice_length {α : Type} (xs : List α) (start stop : Nat) :
    (slice xs start stop).length = min (stop - start) (xs.length - start) := by
  simp [slice]

theorem batchItems_length {α : Type} (xs : List α) (t : Nat) :
    (batchItems xs t).length = min batchSize (xs.length - batchSize * t) := by
  simp [batchItems, slice_length]

theorem slice_take {α : Type} (xs : List α) (start stop m : Nat) (h : stop ≤ m) :
    slice (xs.take m) start stop = slice xs start stop := by
  simp only [slice, List.drop_take, List.take_take]
  congr 1
  omega

theorem forall₂_slice {α β : Type} (R : α → β → Prop) (xs : List α) (ys : List β)
    (start stop m : Nat) (h : stop ≤ m) (hr : List.Forall₂ R (xs.take m) ys) :
    List.Forall₂ R (slice xs start stop) (slice ys start stop) := by
  have h1 := List.forall₂_take (stop - start) (List.forall₂_drop start hr)
  have h2 : ((xs.take m).drop start).take (stop - start) = slice xs start stop :=
    slice_take xs start stop m h
  rw [h2] at h1
  exact h1

theorem forall₂_mem_right {α β : Type} (R : α → β → Prop) (xs : List α) (ys : List β)
    (hr : List.Forall₂ R xs ys) (y : β) (hy : y ∈ ys) : ∃ x, x ∈ xs ∧ R x y := by
  induction hr with
  | nil => simp at hy
  | cons hab _ ih =>
    rcases List.mem_cons.mp hy with h | h
    · subst h
      exact ⟨_, List.mem_cons_self _ _, hab⟩
    · obtain ⟨x, hx, hxy⟩ := ih h
      exact ⟨x, List.mem_cons_of_mem _ hx, hxy⟩

theorem forall₂_mem_left {α β : Type} (R : α → β → Prop) (xs : List α) (ys : List β)
    (hr : List.Forall₂ R xs ys) (x : α) (hx : x ∈ xs) : ∃ y, y ∈ ys ∧ R x y := by
  induction hr with
  | nil => simp at hx
  | cons hab _ ih =>
    rcases List.mem_cons.mp hx with h | h
    · subst h
      exact ⟨_, List.mem_cons_self _ _, hab⟩
    · obtain ⟨y, hy, hxy⟩ := ih h
      exact ⟨y, List.mem_cons_of_mem _ hy, hxy⟩

theorem forall₂_replicate {α β : Type} (R : α → β → Prop) (x : α) (y : β) (h : R x y)
    (n : Nat) : List.Forall₂ R (List.replicate n x) (List.replicate n y) := by
  induction n with
  | zero => exact List.Forall₂.nil
  | succ n ih => exact List.Forall₂.cons h ih

theorem mem_of_mem_slice {α : Type} (xs : List α) (start stop : Nat) (x : α)
    (h : x ∈ slice xs start stop) : x ∈ xs :=
  List.mem_of_mem_drop (List.mem_of_mem_take h)

theorem batchItems_flatten {α : Type} (xs : List α) (j : Nat) :
    ((List.range j).map (batchItems xs)).flatten = xs.take (batchSize * j) := by
  induction j with
  | zero => simp
  | succ j ih =>
    have hidx : batchSize * (j + 1) = batchSize * j + batchSize := by
      simp only [batchSize]
      omega
    rw [List.range_succ, List.map_append, List.flatten_append, ih, hidx, List.take_add]
    simp [batchItems, slice]

theorem batchCount_spec (n : Nat) :
    n ≤ batchSize * batchCount n ∧ batchSize * batchCount n < n + batchSize := by
  simp only [batchCount, batchSize]
  omega

theorem batch_exists_of_lt_count (n t : Nat) (h : t < batchCount n) : batchSize * t < n := by
  simp only [batchCount, batchSize] at *
  omega

theorem batchItems_flatten_count {α : Type} (xs : List α) :
    ((List.range (batchCount xs.length)).map (batchItems xs)).flatten = xs := by
  rw [batchItems_flatten]
  exact List.take_of_length_le (batchCount_spec xs.length).1

theorem batchDocs_flatten {ν : Type} (outs : List (Transformed ν)) (j : Nat) :
    ((List.range j).map (batchDocs outs)).flatten
      = (outs.take (batchSize * j)).map Transformed.doc := by
  rw [← batchItems_flatten outs j]
  induction j with
  | zero => simp
  | succ j ih =>
    rw [List.range_succ, List.map_append, List.flatten_append, ih, List.map_append,
      List.flatten_append, List.map_append]
    simp [batchDocs]

/-! ## Staging one batch -/

/-- Staging a group of records whose transforms return and whose documents `batch.set`
accepts: every document joins the batch, every warning is logged. -/
theorem stageLoop_ok {ν : Type} (B : Builtins ν) (store : Store ν)
    (targetCollectionName : String) (xs : List Record) (outs : List (Transformed ν))
    (htr : List.Forall₂ (TransformsTo B) xs outs)
    (hset : ∀ out, out ∈ outs → store.batchSet targetCollectionName out.doc = none)
    (batch : List (Doc ν)) (st : RunState ν) :
    stageLoop B store targetCollectionName xs batch st
      = (Except.ok (batch ++ outs.map Transformed.doc),
          { st with
            log := st.log ++ warningsOf outs
            staged := st.staged ++ outs.map Transformed.doc }) := by
  induction htr generalizing batch st with
  | nil => simp [stageLoop, warningsOf]
  | @cons item out rest outs2 hab _ ih =>
    have hout : firestoreDocData B item = Except.ok out := hab
    have hs : store.batchSet targetCollectionName out.doc = none :=
      hset out (List.mem_cons_self _ _)
    simp only [stageLoop, hout, hs]
    rw [ih (fun o ho => hset o (List.mem_cons_of_mem _ ho))]
    simp [warningsOf, List.append_assoc]

/-! ## The batch loop -/

/-- The loop exits when the index has reached the number of records. -/
theorem batchLoop_exit {ν : Type} (B : Builtins ν) (store : Store ν)
    (targetCollectionName : String) (items : List Record) (i : Nat)
    (st : RunState ν) (h : items.length ≤ i) :
    batchLoop B store targetCollectionName items i st = st := by
  rw [batchLoop]
  simp [Nat.not_lt.mpr h]

/-- One iteration in which staging throws: the exception leaves the loop before any
commit of this batch. -/
theorem batchLoop_step_stage_error {ν : Type} (B : Builtins ν) (store : Store ν)
    (targetCollectionName : String) (items : List Record) (i : Nat)
    (st st1 : RunState ν) (e : JsError) (h : i < items.length)
    (hstage : stageLoop B store targetCollectionName (slice items i (i + batchSize)) [] st
      = (Except.error e, st1)) :
    batchLoop B store targetCollectionName items i st = { st1 with thrown := some e } := by
  rw [batchLoop]
  simp [h, hstage]

/-- One iteration whose staging succeeds and whose commit resolves. -/
theorem batchLoop_step_resolved {ν : Type} (B : Builtins ν) (store : Store ν)
    (targetCollectionName : String) (items : List Record) (i : Nat)
    (st st1 : RunState ν) (batch : List (Doc ν)) (h : i < items.length)
    (hstage : stageLoop B store targetCollectionName (slice items i (i + batchSize)) [] st
      = (Except.ok batch, st1))
    (hc : store.batchCommit st1.attempts batch = none) :
    batchLoop B store targetCollectionName items i st
      = batchLoop B store targetCollectionName items (i + batchSize)
          { st1 with
            log := st1.log ++ [Event.processedBatch
              (st1.recordsProcessed + (slice items i (i + batchSize)).length) items.length]
            committed := st1.committed ++ [batch]
            attempts := st1.attempts + 1
            recordsProcessed :=
              st1.recordsProcessed + (slice items i (i + batchSize)).length } := by
  rw [batchLoop]
  simp [h, hstage, hc]

/-- One iteration whose staging succeeds and whose commit rejects: the exception leaves
the loop. -/
theorem batchLoop_step_rejected {ν : Type} (B : Builtins ν) (store : Store ν)
    (targetCollectionName : String) (items : List Record) (i : Nat)
    (st st1 : RunState ν) (batch : List (Doc ν)) (e : JsError) (h : i < items.length)
    (hstage : stageLoop B store targetCollectionName (slice items i (i + batchSize)) [] st
      = (Except.ok batch, st1))
    (hc : store.batchCommit st1.attempts batch = some e) :
    batchLoop B store targetCollectionName items i st
      = { st1 with attempts := st1.attempts + 1, thrown := some e } := by
  rw [batchLoop]
  simp [h, hstage, hc]

theorem loopLog_succ {ν : Type} (outs : List (Transformed ν)) (n base j : Nat) :
    loopLog outs n base (j + 1)
      = loopLog outs n base j ++ (warningsOf (batchItems outs j)
          ++ [Event.processedBatch (base + processedAfter n (j + 1)) n]) := by
  simp [loopLog, List.range_succ]

theorem processedAfter_succ (items : List Record) (j : Nat)
    (h : batchSize * j < items.length) :
    processedAfter items.length j + (batchItems items j).length
      = processedAfter items.length (j + 1) := by
  rw [batchItems_length]
  simp only [processedAfter, batchSize] at *
  omega

theorem afterBatches_zero {ν : Type} (outs : List (Transformed ν)) (n : Nat)
    (st : RunState ν) : afterBatches outs n st 0 = st := by
  simp [afterBatches, loopLog, processedAfter]

theorem take_batch_succ {ν : Type} (outs : List (Transformed ν)) (j : Nat) :
    (outs.take (batchSize * (j + 1))).map Transformed.doc
      = (outs.take (batchSize * j)).map Transformed.doc ++ batchDocs outs j := by
  have hidx : batchSize * (j + 1) = batchSize * j + batchSize := by
    simp only [batchSize]
    omega
  rw [hidx, List.take_add, List.map_append]
  simp [batchDocs, batchItems, slice]

/-- The loop, entered at index 0, reaches index `400 * j` in the state `afterBatches` when
the first `j` batches exist, their records transform to `outs`, `batch.set` accepts the
documents and the commits resolve. -/
theorem batchLoop_reaches {ν : Type} (B : Builtins ν) (store : Store ν)
    (targetCollectionName : String) (items : List Record) (outs : List (Transformed ν))
    (m : Nat) (htr : List.Forall₂ (TransformsTo B) (items.take m) outs)
    (hset : ∀ out, out ∈ outs → store.batchSet targetCollectionName out.doc = none)
    (st : RunState ν) (j : Nat) (hj : batchSize * j < items.length + batchSize)
    (hm : batchSize * j ≤ m)
    (hc : ∀ t, t < j → store.batchCommit (st.attempts + t) (batchDocs outs t) = none) :
    batchLoop B store targetCollectionName items 0 st
      = batchLoop B store targetCollectionName items (batchSize * j)
          (afterBatches outs items.length st j) := by
  induction j with
  | zero => simp [afterBatches_zero]
  | succ j ih =>
    have hidx : batchSize * j + batchSize = batchSize * (j + 1) := by
      simp only [batchSize]
      omega
    have hlt : batchSize * j < items.length := by
      simp only [batchSize] at *
      omega
    rw [ih (by omega) (by omega) (fun t ht => hc t (Nat.lt_succ_of_lt ht))]
    have hslice : List.Forall₂ (TransformsTo B)
        (slice items (batchSize * j) (batchSize * j + batchSize)) (batchItems outs j) :=
      forall₂_slice _ items outs _ _ m (by omega) htr
    have hsetj : ∀ out, out ∈ batchItems outs j →
        store.batchSet targetCollectionName out.doc = none :=
      fun out ho => hset out (mem_of_mem_slice outs _ _ out ho)
    have hstage := stageLoop_ok B store targetCollectionName _ _ hslice hsetj []
      (afterBatches outs items.length st j)
    rw [List.nil_append] at hstage
    have hcj : store.batchCommit (st.attempts + j) (batchDocs outs j) = none :=
      hc j (Nat.lt_succ_self j)
    rw [batchLoop_step_resolved B store targetCollectionName items _ _ _ _ hlt hstage hcj]
    have hproc := processedAfter_succ items j hlt
    simp only [batchItems] at hproc
    rw [hidx]
    rw [hidx] at hproc
    congr 1
    simp only [afterBatches, loopLog_succ, List.range_succ, List.map_append, List.map_cons,
      List.map_nil, RunState.mk.injEq, take_batch_succ]
    refine ⟨?_, ?_, ?_, ?_, ?_, ?_⟩
    · simp [List.append_assoc, Nat.add_assoc, hproc]
    · simp [List.append_assoc, batchDocs]
    · simp [List.append_assoc, batchDocs]
    · omega
    · omega
    · trivial

/-- Final state of the loop when every record transforms, `batch.set` accepts every
document and every commit resolves. -/
theorem batchLoop_all_resolved {ν : Type} (B : Builtins ν) (store : Store ν)
    (targetCollectionName : String) (items : List Record) (outs : List (Transformed ν))
    (htr : List.Forall₂ (TransformsTo B) items outs)
    (hset : ∀ out, out ∈ outs → store.batchSet targetCollectionName out.doc = none)
    (st : RunState ν)
    (hc : ∀ t, t < batchCount items.length →
      store.batchCommit (st.attempts + t) (batchDocs outs t) = none) :
    batchLoop B store targetCollectionName items 0 st
      = afterBatches outs items.length st (batchCount items.length) := by
  have hspec := batchCount_spec items.length
  have htr2 : List.Forall₂ (TransformsTo B)
      (items.take (batchSize * batchCount items.length)) outs := by
    rw [List.take_of_length_le hspec.1]
    exact htr
  rw [batchLoop_reaches B store targetCollectionName items outs _ htr2 hset st
    (batchCount items.length) hspec.2 (Nat.le_refl _) hc]
  exact batchLoop_exit B store targetCollectionName items _ _ hspec.1

/-- Final state of the loop when staging succeeds up to batch `j`, the commits of the
batches before number `j` resolve and the commit of batch `j` rejects. -/
theorem batchLoop_rejected_at {ν : Type} (B : Builtins ν) (store : Store ν)
    (targetCollectionName : String) (items : List Record) (outs : List (Transformed ν))
    (j : Nat) (e : JsError) (hj : batchSize * j < items.length)
    (htr : List.Forall₂ (TransformsTo B) (items.take (batchSize * (j + 1))) outs)
    (hset : ∀ out, out ∈ outs → store.batchSet targetCollectionName out.doc = none)
    (st : RunState ν)
    (hok : ∀ t, t < j → store.batchCommit (st.attempts + t) (batchDocs outs t) = none)
    (hfail : store.batchCommit (st.attempts + j) (batchDocs outs j) = some e) :
    batchLoop B store targetCollectionName items 0 st
      = { log := st.log ++ loopLog outs items.length st.recordsProcessed j
            ++ warningsOf (batchItems outs j)
          staged := st.staged ++ (outs.take (batchSize * (j + 1))).map Transformed.doc
          committed := st.committed ++ (List.range j).map (batchDocs outs)
          attempts := st.attempts + j + 1
          recordsProcessed := st.recordsProcessed + processedAfter items.length j
          thrown := some e } := by
  have hidx : batchSize * j + batchSize = batchSize * (j + 1) := by
    simp only [batchSize]
    omega
  rw [batchLoop_reaches B store targetCollectionName items outs _ htr hset st j
    (Nat.lt_add_right _ hj) (by omega) hok]
  have hslice : List.Forall₂ (TransformsTo B)
      (slice items (batchSize * j) (batchSize * j + batchSize)) (batchItems outs j) :=
    forall₂_slice _ items outs _ _ _ (by omega) htr
  have hsetj : ∀ out, out ∈ batchItems outs j →
      store.batchSet targetCollectionName out.doc = none :=
    fun out ho => hset out (mem_of_mem_slice outs _ _ out ho)
  have hstage := stageLoop_ok B store targetCollectionName _ _ hslice hsetj []
    (afterBatches outs items.length st j)
  rw [List.nil_append] at hstage
  have hcj : store.batchCommit (st.attempts + j) (batchDocs outs j) = some e := hfail
  rw [batchLoop_step_rejected B store targetCollectionName items _ _ _ _ e hj hstage hcj]
  simp only [afterBatches, take_batch_succ, batchDocs, List.append_assoc, Nat.add_assoc]

theorem processedAfter_count (n : Nat) : processedAfter n (batchCount n) = n := by
  have h := (batchCount_spec n).1
  simp only [processedAfter]
  omega

/-- State in which the `try` block is left when every record transforms, `batch.set`
accepts every document and every commit resolves. -/
theorem tryBlock_resolved {ν : Type} (B : Builtins ν) (store : Store ν)
    (jsonFilePath targetCollectionName : String) (items : List Record)
    (outs : List (Transformed ν)) (htr : List.Forall₂ (TransformsTo B) items outs)
    (hset : ∀ out, out ∈ outs → store.batchSet targetCollectionName out.doc = none)
    (hc : ∀ t, t < batchCount items.length →
      store.batchCommit t (batchDocs outs t) = none) :
    tryBlock B store jsonFilePath targetCollectionName (Except.ok items)
      = { log := (initialState jsonFilePath targetCollectionName items.length : RunState ν).log
            ++ loopLog outs items.length 0 (batchCount items.length)
            ++ [Event.migrationComplete items.length targetCollectionName]
          staged := outs.map Transformed.doc
          committed := (List.range (batchCount items.length)).map (batchDocs outs)
          attempts := batchCount items.length
          recordsProcessed := items.length
          thrown := none } := by
  have hloop := batchLoop_all_resolved B store targetCollectionName items outs htr hset
    (initialState jsonFilePath targetCollectionName items.length)
    (by simpa [initialState] using hc)
  have hlen : outs.length ≤ batchSize * batchCount items.length := by
    rw [← htr.length_eq]
    exact (batchCount_spec items.length).1
  simp only [tryBlock, migrationBody, hloop, afterBatches, processedAfter_count,
    List.take_of_length_le hlen]
  simp [initialState]

/-- Final state of `importJsonToFirestore` when every record transforms, `batch.set`
accepts every document and every commit resolves. -/
theorem importJsonToFirestore_resolved {ν : Type} (B : Builtins ν) (store : Store ν)
    (jsonFilePath targetCollectionName : String) (items : List Record)
    (outs : List (Transformed ν)) (htr : List.Forall₂ (TransformsTo B) items outs)
    (hset : ∀ out, out ∈ outs → store.batchSet targetCollectionName out.doc = none)
    (hc : ∀ t, t < batchCount items.length →
      store.batchCommit t (batchDocs outs t) = none) :
    importJsonToFirestore B store jsonFilePath targetCollectionName (Except.ok items)
      = { log := (initialState jsonFilePath targetCollectionName items.length : RunState ν).log
            ++ loopLog outs items.length 0 (batchCount items.length)
            ++ [Event.migrationComplete items.length targetCollectionName]
          staged := outs.map Transformed.doc
          committed := (List.range (batchCount items.length)).map (batchDocs outs)
          attempts := batchCount items.length
          recordsProcessed := items.length
          thrown := none } := by
  simp [importJsonToFirestore,
    tryBlock_resolved B store jsonFilePath targetCollectionName items outs htr hset hc]

/-- State in which the `try` block is left when the commit of batch `j` rejects. -/
theorem tryBlock_rejected {ν : Type} (B : Builtins ν) (store : Store ν)
    (jsonFilePath targetCollectionName : String) (items : List Record)
    (outs : List (Transformed ν)) (j : Nat) (e : JsError)
    (hj : batchSize * j < items.length)
    (htr : List.Forall₂ (TransformsTo B) (items.take (batchSize * (j + 1))) outs)
    (hset : ∀ out, out ∈ outs → store.batchSet targetCollectionName out.doc = none)
    (hok : ∀ t, t < j → store.batchCommit t (batchDocs outs t) = none)
    (hfail : store.batchCommit j (batchDocs outs j) = some e) :
    tryBlock B store jsonFilePath targetCollectionName (Except.ok items)
      = { log := (initialState jsonFilePath targetCollectionName items.length : RunState ν).log
            ++ loopLog outs items.length 0 j ++ warningsOf (batchItems outs j)
          staged := (outs.take (batchSize * (j + 1))).map Transformed.doc
          committed := (List.range j).map (batchDocs outs)
          attempts := j + 1
          recordsProcessed := processedAfter items.length j
          thrown := some e } := by
  have hloop := batchLoop_rejected_at B store targetCollectionName items outs j e hj htr hset
    (initialState jsonFilePath targetCollectionName items.length)
    (by simpa [initialState] using hok) (by simpa [initialState] using hfail)
  simp only [initialState] at hloop
  simp [tryBlock, migrationBody, hloop, initialState]

/-- Final state of `importJsonToFirestore` when the commit of batch `j` rejects. -/
theorem importJsonToFirestore_rejected {ν : Type} (B : Builtins ν) (store : Store ν)
    (jsonFilePath targetCollectionName : String) (items : List Record)
    (outs : List (Transformed ν)) (j : Nat) (e : JsError)
    (hj : batchSize * j < items.length)
    (htr : List.Forall₂ (TransformsTo B) (items.take (batchSize * (j + 1))) outs)
    (hset : ∀ out, out ∈ outs → store.batchSet targetCollectionName out.doc = none)
    (hok : ∀ t, t < j → store.batchCommit t (batchDocs outs t) = none)
    (hfail : store.batchCommit j (batchDocs outs j) = some e) :
    importJsonToFirestore B store jsonFilePath targetCollectionName (Except.ok items)
      = { log := (initialState jsonFilePath targetCollectionName items.length : RunState ν).log
            ++ loopLog outs items.length 0 j ++ warningsOf (batchItems outs j)
            ++ [Event.errorBanner, Event.errorDetail e]
          staged := (outs.take (batchSize * (j + 1))).map Transformed.doc
          committed := (List.range j).map (batchDocs outs)
          attempts := j + 1
          recordsProcessed := processedAfter items.length j
          thrown := none } := by
  simp [importJsonToFirestore,
    tryBlock_rejected B store jsonFilePath targetCollectionName items outs j e hj htr hset
      hok hfail]

/-- Final state of `importJsonToFirestore` when staging throws in the first batch. -/
theorem importJsonToFirestore_stage_error {ν : Type} (B : Builtins ν) (store : Store ν)
    (jsonFilePath targetCollectionName : String) (items : List Record)
    (st1 : RunState ν) (e : JsError) (hpos : 0 < items.length)
    (hstage : stageLoop B store targetCollectionName (slice items 0 (0 + batchSize)) []
        (initialState jsonFilePath targetCollectionName items.length)
      = (Except.error e, st1)) :
    importJsonToFirestore B store jsonFilePath targetCollectionName (Except.ok items)
      = { st1 with
          log := st1.log ++ [Event.errorBanner, Event.errorDetail e]
          thrown := none } := by
  have hloop := batchLoop_step_stage_error B store targetCollectionName items 0 _ st1 e hpos
    hstage
  simp [importJsonToFirestore, tryBlock, migrationBody, hloop]

/-! ## Console lines of the loop -/

theorem transform_warnings {ν : Type} (B : Builtins ν) (item : Record) (out : Transformed ν)
    (h : TransformsTo B item out) (ev : Event) (hev : ev ∈ out.warnings) :
    ∃ s, ev = Event.warnSignupDate s := by
  obtain ⟨doc, _, hconv⟩ := (firestoreDocData_ok_iff B item out).mp h
  rw [hconv] at hev
  exact convertSignupDate_warnings B doc ev hev

theorem warningsOf_only_warnings {ν : Type} (B : Builtins ν) (xs : List Record)
    (outs : List (Transformed ν)) (htr : List.Forall₂ (TransformsTo B) xs outs)
    (sub : List (Transformed ν)) (hsub : ∀ out, out ∈ sub → out ∈ outs) (ev : Event)
    (hev : ev ∈ warningsOf sub) : ∃ s, ev = Event.warnSignupDate s := by
  simp only [warningsOf, List.mem_flatten, List.mem_map] at hev
  obtain ⟨ws, ⟨out, hout, rfl⟩, hin⟩ := hev
  obtain ⟨item, _, hR⟩ := forall₂_mem_right _ xs outs htr out (hsub out hout)
  exact transform_warnings B item out hR ev hin

theorem loopLog_events {ν : Type} (B : Builtins ν) (xs : List Record)
    (outs : List (Transformed ν)) (htr : List.Forall₂ (TransformsTo B) xs outs)
    (n base j : Nat) (ev : Event) (hev : ev ∈ loopLog outs n base j) :
    (∃ s, ev = Event.warnSignupDate s) ∨ ∃ p q, ev = Event.processedBatch p q := by
  simp only [loopLog, List.mem_flatten, List.mem_map, List.mem_range] at hev
  obtain ⟨l, ⟨t, _, rfl⟩, hin⟩ := hev
  rcases List.mem_append.mp hin with h | h
  · exact Or.inl (warningsOf_only_warnings B xs outs htr _
      (fun out ho => mem_of_mem_slice outs _ _ out ho) ev h)
  · exact Or.inr ⟨_, _, by simpa using h⟩

theorem warnings_subset_loopLog {ν : Type} (outs : List (Transformed ν)) (n base j t : Nat)
    (ht : t < j) (ev : Event) (hev : ev ∈ warningsOf (batchItems outs t)) :
    ev ∈ loopLog outs n base j := by
  simp only [loopLog, List.mem_flatten, List.mem_map, List.mem_range]
  exact ⟨_, ⟨t, ht, rfl⟩, List.mem_append_left _ hev⟩

/-! ## Sample rows -/

theorem sample_row_transforms :
    TransformsTo sampleBuiltins [("id", "123")] sampleOut := rfl

theorem sample_rows_transform (n : Nat) :
    List.Forall₂ (TransformsTo sampleBuiltins) (List.replicate n [("id", "123")])
      (List.replicate n sampleOut) :=
  forall₂_replicate (TransformsTo sampleBuiltins) _ _ sample_row_transforms n

theorem sample_rows_take_transform (n m : Nat) :
    List.Forall₂ (TransformsTo sampleBuiltins) ((List.replicate n [("id", "123")]).take m)
      (List.replicate (min m n) sampleOut) := by
  rw [List.take_replicate]
  exact sample_rows_transform (min m n)

theorem sample_rows_accepted (name : String) (n : Nat) (out : Transformed SampleNum)
    (h : out ∈ List.replicate n sampleOut) : sampleBatchSet name out.doc = none := by
  rw [List.eq_of_mem_replicate h]
  rfl

/-! ## Claims on the writer -/

/-- C4, as found in the code: the groups `items.slice(i, i + 400)` for i = 0, 400, 800, ...
are consecutive, their concatenation is the input and each has between 1 and 400 records;
and when every record transforms, `batch.set` accepts every document and every commit
resolves, the committed batches are these groups transformed record by record, and the
documents staged, like the documents of all committed batches in commit order, are the
per-record transform mapped over the input list. -/
theorem C4_batches_partition_input {ν : Type} (B : Builtins ν) (store : Store ν)
    (jsonFilePath targetCollectionName : String) (items : List Record)
    (outs : List (Transformed ν)) (htr : List.Forall₂ (TransformsTo B) items outs)
    (hset : ∀ out, out ∈ outs → store.batchSet targetCollectionName out.doc = none)
    (hc : ∀ t, t < batchCount items.length →
      store.batchCommit t (batchDocs outs t) = none) :
    ((List.range (batchCount items.length)).map
        (fun t => slice items (400 * t) (400 * t + 400))).flatten = items
    ∧ (∀ t, t < batchCount items.length →
        1 ≤ (slice items (400 * t) (400 * t + 400)).length
        ∧ (slice items (400 * t) (400 * t + 400)).length ≤ 400)
    ∧ (importJsonToFirestore B store jsonFilePath targetCollectionName
          (Except.ok items)).committed
        = (List.range (batchCount items.length)).map
            (fun t => (slice outs (400 * t) (400 * t + 400)).map Transformed.doc)
    ∧ (importJsonToFirestore B store jsonFilePath targetCollectionName
          (Except.ok items)).staged = outs.map Transformed.doc
    ∧ (importJsonToFirestore B store jsonFilePath targetCollectionName
          (Except.ok items)).committed.flatten = outs.map Transformed.doc := by
  rw [importJsonToFirestore_resolved B store jsonFilePath targetCollectionName items outs htr
    hset hc]
  refine ⟨batchItems_flatten_count items, ?_, rfl, rfl, ?_⟩
  · intro t ht
    have hlt := batch_exists_of_lt_count items.length t ht
    have hlen := batchItems_length items t
    simp only [batchItems, batchSize] at hlen hlt
    rw [hlen]
    omega
  · show ((List.range (batchCount items.length)).map (batchDocs outs)).flatten = _
    have hlen : outs.length ≤ batchSize * batchCount items.length := by
      rw [← htr.length_eq]
      exact (batchCount_spec items.length).1
    rw [batchDocs_flatten, List.take_of_length_le hlen]

/-- Witness of C4: 401 rows, two batches. -/
theorem C4_batches_partition_input_witness :
    (importJsonToFirestore sampleBuiltins resolvingStore "results.csv"
        "ProdWebSocketConnections"
        (Except.ok (List.replicate 401 [("id", "123")]))).committed.flatten
      = (List.replicate 401 sampleOut).map Transformed.doc :=
  (C4_batches_partition_input sampleBuiltins resolvingStore "results.csv"
    "ProdWebSocketConnections" (List.replicate 401 [("id", "123")])
    (List.replicate 401 sampleOut) (sample_rows_transform 401)
    (sample_rows_accepted "ProdWebSocketConnections" 401) (fun _ _ => rfl)).2.2.2.2

/-- Counterexample to C4 as stated: 401 rows that all transform, in a store whose commits
reject. The first commit rejects and the run stops: no batch is committed, and only the
400 documents of the first group were staged, so neither the documents written nor the
documents staged are the transform mapped over the 401 rows. -/
theorem C4_counterexample :
    List.Forall₂ (TransformsTo sampleBuiltins) (List.replicate 401 [("id", "123")])
        (List.replicate 401 sampleOut)
      ∧ (importJsonToFirestore sampleBuiltins rejectingStore "results.csv"
          "ProdWebSocketConnections"
          (Except.ok (List.replicate 401 [("id", "123")]))).committed = []
      ∧ (importJsonToFirestore sampleBuiltins rejectingStore "results.csv"
          "ProdWebSocketConnections"
          (Except.ok (List.replicate 401 [("id", "123")]))).staged.length = 400 := by
  have hj : batchSize * 0 < (List.replicate 401 [("id", "123")]).length := by
    rw [List.length_replicate]
    decide
  have h := importJsonToFirestore_rejected sampleBuiltins rejectingStore "results.csv"
    "ProdWebSocketConnections" (List.replicate 401 [("id", "123")])
    (List.replicate (min (batchSize * (0 + 1)) 401) sampleOut) 0 "DEADLINE_EXCEEDED" hj
    (sample_rows_take_transform 401 (batchSize * (0 + 1)))
    (sample_rows_accepted "ProdWebSocketConnections" _)
    (fun _ h => absurd h (by omega)) rfl
  rw [h]
  refine ⟨sample_rows_transform 401, rfl, ?_⟩
  show (((List.replicate (min (batchSize * (0 + 1)) 401) sampleOut).take
    (batchSize * (0 + 1))).map Transformed.doc).length = 400
  rw [List.length_map, List.length_take, List.length_replicate]
  decide

theorem committed_sizes {ν : Type} (outs : List (Transformed ν)) (j : Nat) :
    ((List.range j).map (batchDocs outs)).map List.length
      = (List.range j).map (fun t => min 400 (outs.length - 400 * t)) := by
  rw [List.map_map]
  apply List.map_congr_left
  intro t _
  simp [batchDocs, batchItems_length, batchSize]

/-- C5, as found in the code: when every record transforms, `batch.set` accepts every
document and every commit resolves, the number of committed batches (and of commit calls)
is the ceiling of n / 400, that is the `c` with n ≤ 400 c < n + 400; every batch but the
last holds 400 documents and the last holds n - 400 (c - 1); the final `recordsProcessed`
is n, it is the total of the closing summary line, and no exception leaves the `try`
block. With 850 records the batch sizes are 400, 400, 50; with no record there is no
commit call and the summary reports 0. -/
theorem C5_batch_count_and_total {ν : Type} (B : Builtins ν) (store : Store ν)
    (jsonFilePath targetCollectionName : String) (items : List Record)
    (outs : List (Transformed ν)) (htr : List.Forall₂ (TransformsTo B) items outs)
    (hset : ∀ out, out ∈ outs → store.batchSet targetCollectionName out.doc = none)
    (hc : ∀ t, t < batchCount items.length →
      store.batchCommit t (batchDocs outs t) = none) :
    (items.length
        ≤ 400 * (importJsonToFirestore B store jsonFilePath targetCollectionName
            (Except.ok items)).committed.length
      ∧ 400 * (importJsonToFirestore B store jsonFilePath targetCollectionName
            (Except.ok items)).committed.length < items.length + 400)
    ∧ (importJsonToFirestore B store jsonFilePath targetCollectionName
          (Except.ok items)).attempts
        = (importJsonToFirestore B store jsonFilePath targetCollectionName
          (Except.ok items)).committed.length
    ∧ (∀ t, t + 1 < (importJsonToFirestore B store jsonFilePath targetCollectionName
          (Except.ok items)).committed.length →
        ((importJsonToFirestore B store jsonFilePath targetCollectionName
          (Except.ok items)).committed.map List.length)[t]? = some 400)
    ∧ (0 < items.length →
        ((importJsonToFirestore B store jsonFilePath targetCollectionName
          (Except.ok items)).committed.map List.length).getLast?
          = some (items.length - 400 * ((importJsonToFirestore B store jsonFilePath
              targetCollectionName (Except.ok items)).committed.length - 1)))
    ∧ (importJsonToFirestore B store jsonFilePath targetCollectionName
          (Except.ok items)).recordsProcessed = items.length
    ∧ (importJsonToFirestore B store jsonFilePath targetCollectionName
          (Except.ok items)).log.getLast?
        = some (Event.migrationComplete items.length targetCollectionName)
    ∧ (tryBlock B store jsonFilePath targetCollectionName (Except.ok items)).thrown = none
    ∧ (items.length = 850 →
        (importJsonToFirestore B store jsonFilePath targetCollectionName
          (Except.ok items)).committed.map List.length = [400, 400, 50]
        ∧ (importJsonToFirestore B store jsonFilePath targetCollectionName
          (Except.ok items)).attempts = 3
        ∧ (importJsonToFirestore B store jsonFilePath targetCollectionName
          (Except.ok items)).log.getLast?
            = some (Event.migrationComplete 850 targetCollectionName))
    ∧ (items.length = 0 →
        (importJsonToFirestore B store jsonFilePath targetCollectionName
          (Except.ok items)).committed = []
        ∧ (importJsonToFirestore B store jsonFilePath targetCollectionName
          (Except.ok items)).attempts = 0
        ∧ (importJsonToFirestore B store jsonFilePath targetCollectionName
          (Except.ok items)).log.getLast?
            = some (Event.migrationComplete 0 targetCollectionName)) := by
  rw [importJsonToFirestore_resolved B store jsonFilePath targetCollectionName items outs htr
      hset hc,
    tryBlock_resolved B store jsonFilePath targetCollectionName items outs htr hset hc]
  have hspec := batchCount_spec items.length
  have hlen : outs.length = items.length := htr.length_eq.symm
  simp only [batchSize] at hspec
  simp only [List.length_map, List.length_range, committed_sizes, hlen]
  refine ⟨hspec, trivial, ?_, ?_, trivial, by simp, trivial, ?_, ?_⟩
  · intro t ht
    have hlt : t < batchCount items.length := by omega
    rw [List.getElem?_map, List.getElem?_range hlt]
    simp only [Option.map_some']
    congr 1
    omega
  · intro hpos
    have hcnt : 0 < batchCount items.length := by
      simp only [batchCount, batchSize] at *
      omega
    rw [List.getLast?_eq_getElem?, List.length_map, List.length_range, List.getElem?_map,
      List.getElem?_range (by omega)]
    simp only [Option.map_some']
    congr 1
    omega
  · intro h850
    have hcnt : batchCount items.length = 3 := by
      rw [h850]
      rfl
    rw [hcnt, h850]
    exact ⟨by decide, rfl, by simp⟩
  · intro h0
    have hcnt : batchCount items.length = 0 := by
      rw [h0]
      rfl
    rw [hcnt, h0]
    exact ⟨rfl, rfl, by simp⟩

/-- Witness of C5: 850 rows give batches of 400, 400 and 50 documents. -/
theorem C5_batch_count_and_total_witness :
    (importJsonToFirestore sampleBuiltins resolvingStore "results.csv"
        "ProdWebSocketConnections"
        (Except.ok (List.replicate 850 [("id", "123")]))).committed.map List.length
        = [400, 400, 50]
      ∧ (importJsonToFirestore sampleBuiltins resolvingStore "results.csv"
        "ProdWebSocketConnections"
        (Except.ok (List.replicate 850 [("id", "123")]))).attempts = 3
      ∧ (importJsonToFirestore sampleBuiltins resolvingStore "results.csv"
        "ProdWebSocketConnections"
        (Except.ok (List.replicate 850 [("id", "123")]))).log.getLast?
          = some (Event.migrationComplete 850 "ProdWebSocketConnections") :=
  (C5_batch_count_and_total sampleBuiltins resolvingStore "results.csv"
    "ProdWebSocketConnections" (List.replicate 850 [("id", "123")])
    (List.replicate 850 sampleOut) (sample_rows_transform 850)
    (sample_rows_accepted "ProdWebSocketConnections" 850)
    (fun _ _ => rfl)).2.2.2.2.2.2.2.1 (List.length_replicate 850 _)

/-- Counterexample to C5 as stated: one row with an empty column name, in a store whose
commits all resolve. `batch.set` throws on the document, so the run makes no commit call,
commits no batch and prints the error lines instead of the summary, where the ceiling of
1 / 400 is 1. -/
theorem C5_counterexample :
    (∀ t docs, resolvingStore.batchCommit t docs = none)
      ∧ batchCount [[("", "hello"), ("b", "hello")]].length = 1
      ∧ (importJsonToFirestore sampleBuiltins resolvingStore "results.csv"
          "ProdWebSocketConnections"
          (Except.ok [[("", "hello"), ("b", "hello")]])).attempts = 0
      ∧ (importJsonToFirestore sampleBuiltins resolvingStore "results.csv"
          "ProdWebSocketConnections"
          (Except.ok [[("", "hello"), ("b", "hello")]])).committed = []
      ∧ (importJsonToFirestore sampleBuiltins resolvingStore "results.csv"
          "ProdWebSocketConnections"
          (Except.ok [[("", "hello"), ("b", "hello")]])).log
        = [Event.startBanner, Event.sourceFile "results.csv",
            Event.targetCollection "ProdWebSocketConnections", Event.totalRecords 1,
            Event.errorBanner,
            Event.errorDetail "Element at index 0 should not be an empty string."] := by
  have h := importJsonToFirestore_stage_error sampleBuiltins resolvingStore "results.csv"
    "ProdWebSocketConnections" [[("", "hello"), ("b", "hello")]]
    (initialState "results.csv" "ProdWebSocketConnections" 1)
    "Element at index 0 should not be an empty string." (by decide) rfl
  rw [h]
  exact ⟨fun _ _ => rfl, rfl, rfl, rfl, rfl⟩

/-- C6, as found in the code: if the commit of batch `j` (counted from 0) is reached, that
is the records of the batches up to `j` transform and `batch.set` accepts their documents,
the commits of the batches before `j` resolve and the commit of batch `j` rejects with
`e`, then exactly the first `j` batches are committed, `j + 1` commit calls have been made
in all, no summary line "Migration complete" is printed, and the exception leaves the
`try` block; the `catch` clause of `importJsonToFirestore` then prints the error banner
and the error, and the function returns without an exception. -/
theorem C6_rejected_commit_aborts {ν : Type} (B : Builtins ν) (store : Store ν)
    (jsonFilePath targetCollectionName : String) (items : List Record)
    (outs : List (Transformed ν)) (j : Nat) (e : JsError) (hj : 400 * j < items.length)
    (htr : List.Forall₂ (TransformsTo B) (items.take (400 * (j + 1))) outs)
    (hset : ∀ out, out ∈ outs → store.batchSet targetCollectionName out.doc = none)
    (hok : ∀ t, t < j → store.batchCommit t (batchDocs outs t) = none)
    (hfail : store.batchCommit j (batchDocs outs j) = some e) :
    (importJsonToFirestore B store jsonFilePath targetCollectionName
        (Except.ok items)).committed = (List.range j).map (batchDocs outs)
    ∧ (importJsonToFirestore B store jsonFilePath targetCollectionName
        (Except.ok items)).attempts = j + 1
    ∧ (∀ p c, Event.migrationComplete p c
        ∉ (importJsonToFirestore B store jsonFilePath targetCollectionName
            (Except.ok items)).log)
    ∧ (tryBlock B store jsonFilePath targetCollectionName (Except.ok items)).thrown = some e
    ∧ (importJsonToFirestore B store jsonFilePath targetCollectionName
        (Except.ok items)).log
        = (tryBlock B store jsonFilePath targetCollectionName (Except.ok items)).log
            ++ [Event.errorBanner, Event.errorDetail e]
    ∧ (importJsonToFirestore B store jsonFilePath targetCollectionName
        (Except.ok items)).thrown = none := by
  have hj2 : batchSize * j < items.length := hj
  have htr2 : List.Forall₂ (TransformsTo B) (items.take (batchSize * (j + 1))) outs := htr
  rw [importJsonToFirestore_rejected B store jsonFilePath targetCollectionName items outs j e
      hj2 htr2 hset hok hfail,
    tryBlock_rejected B store jsonFilePath targetCollectionName items outs j e hj2 htr2 hset
      hok hfail]
  refine ⟨rfl, rfl, ?_, rfl, rfl, rfl⟩
  intro p c hmem
  simp only [initialState, List.mem_append, List.mem_cons, List.mem_singleton,
    List.not_mem_nil, or_false] at hmem
  rcases hmem with ((h | h) | h) | h
  · rcases h with h | h | h | h <;> exact Event.noConfusion h
  · rcases loopLog_events B _ outs htr2 items.length 0 j _ h with ⟨s, hs⟩ | ⟨q, n, hq⟩
    · exact Event.noConfusion hs
    · exact Event.noConfusion hq
  · obtain ⟨s, hs⟩ := warningsOf_only_warnings B _ outs htr2 _
      (fun out ho => mem_of_mem_slice outs _ _ out ho) _ h
    exact Event.noConfusion hs
  · rcases h with h | h <;> exact Event.noConfusion h

/-- Witness of C6: 401 rows, the first commit resolves and the second rejects. -/
theorem C6_rejected_commit_aborts_witness :
    (importJsonToFirestore sampleBuiltins secondCommitRejectingStore "results.csv"
        "ProdWebSocketConnections" (Except.ok (List.replicate 401 [("id", "123")]))).committed
      = (List.range 1).map (batchDocs (List.replicate (min (400 * (1 + 1)) 401) sampleOut))
    ∧ (importJsonToFirestore sampleBuiltins secondCommitRejectingStore "results.csv"
        "ProdWebSocketConnections" (Except.ok (List.replicate 401 [("id", "123")]))).attempts
      = 1 + 1 :=
  ⟨(C6_rejected_commit_aborts sampleBuiltins secondCommitRejectingStore "results.csv"
      "ProdWebSocketConnections" (List.replicate 401 [("id", "123")])
      (List.replicate (min (400 * (1 + 1)) 401) sampleOut) 1 "DEADLINE_EXCEEDED"
      (by rw [List.length_replicate]; decide) (sample_rows_take_transform 401 (400 * (1 + 1)))
      (sample_rows_accepted "ProdWebSocketConnections" _)
      (fun t ht => by
        have h0 : t = 0 := by omega
        subst h0
        rfl)
      rfl).1,
   (C6_rejected_commit_aborts sampleBuiltins secondCommitRejectingStore "results.csv"
      "ProdWebSocketConnections" (List.replicate 401 [("id", "123")])
      (List.replicate (min (400 * (1 + 1)) 401) sampleOut) 1 "DEADLINE_EXCEEDED"
      (by rw [List.length_replicate]; decide) (sample_rows_take_transform 401 (400 * (1 + 1)))
      (sample_rows_accepted "ProdWebSocketConnections" _)
      (fun t ht => by
        have h0 : t = 0 := by omega
        subst h0
        rfl)
      rfl).2.1⟩

/-- Counterexample to C6 as stated: the only commit of a run over one record rejects, and
`importJsonToFirestore` ends with no exception in flight: the failure does not leave the
function. -/
theorem C6_counterexample :
    rejectingStore.batchCommit 0 (batchDocs [sampleOut] 0) = some "DEADLINE_EXCEEDED"
      ∧ (importJsonToFirestore sampleBuiltins rejectingStore "results.csv"
          "ProdWebSocketConnections" (Except.ok [[("id", "123")]])).thrown = none
      ∧ (importJsonToFirestore sampleBuiltins rejectingStore "results.csv"
          "ProdWebSocketConnections" (Except.ok [[("id", "123")]])).log
        = [Event.startBanner, Event.sourceFile "results.csv",
            Event.targetCollection "ProdWebSocketConnections", Event.totalRecords 1,
            Event.errorBanner, Event.errorDetail "DEADLINE_EXCEEDED"] := by
  have h := importJsonToFirestore_rejected sampleBuiltins rejectingStore "results.csv"
    "ProdWebSocketConnections" [[("id", "123")]] [sampleOut] 0 "DEADLINE_EXCEEDED"
    (by decide) (List.Forall₂.cons sample_row_transforms List.Forall₂.nil)
    (fun out ho => by
      rw [List.mem_singleton.mp ho]
      rfl)
    (fun _ h => absurd h (by omega)) rfl
  rw [h]
  exact ⟨rfl, rfl, rfl⟩

/-- C8: for a record whose unwrapped signupDate is a non-empty string `s` (the field loop
returned `doc` with that field), the transform returns a document without raising: the
signupDate step applied to `doc`. If `s` converts, the output signupDate is that timestamp
and nothing is logged; if the conversion throws, the output signupDate is still the string
`s` and one warning is logged; in both cases every other field is as the field loop left
it. A conversion failure does not abort the run: in the staging loop, the record is passed
on to lines 90-91 with the warning logged, whatever the store and the state; and in a run
over any input containing the record, in which every record transforms, `batch.set`
accepts every document and every commit resolves, the warning is logged, the closing
summary is printed and no exception leaves the `try` block. -/
theorem C8_signupDate_conversion {ν : Type} (B : Builtins ν) (item : Record) (doc : Doc ν)
    (s : String) (hs : s ≠ "") (hloop : fieldLoop B item [] = Except.ok doc)
    (hfield : Doc.get doc "signupDate" = some (FieldVal.json (Json.str s))) :
    firestoreDocData B item = Except.ok (convertSignupDate B doc)
    ∧ (∀ t, B.toTimestamp s = some t →
        Doc.get (convertSignupDate B doc).doc "signupDate" = some (FieldVal.timestamp t)
        ∧ (convertSignupDate B doc).warnings = [])
    ∧ (B.toTimestamp s = none →
        Doc.get (convertSignupDate B doc).doc "signupDate"
            = some (FieldVal.json (Json.str s))
        ∧ (convertSignupDate B doc).warnings = [Event.warnSignupDate s])
    ∧ (∀ k, k ≠ "signupDate" →
        Doc.get (convertSignupDate B doc).doc k = Doc.get doc k)
    ∧ (B.toTimestamp s = none →
        ∀ (store : Store ν) (targetCollectionName : String) (rest : List Record)
          (batch : List (Doc ν)) (st : RunState ν),
          stageLoop B store targetCollectionName (item :: rest) batch st
            = match store.batchSet targetCollectionName doc with
              | some e =>
                (Except.error e, { st with log := st.log ++ [Event.warnSignupDate s] })
              | none =>
                stageLoop B store targetCollectionName rest (batch ++ [doc])
                  { st with
                    log := st.log ++ [Event.warnSignupDate s]
                    staged := st.staged ++ [doc] })
    ∧ (B.toTimestamp s = none →
        ∀ (store : Store ν) (jsonFilePath targetCollectionName : String)
          (items : List Record) (outs : List (Transformed ν)),
          item ∈ items →
          List.Forall₂ (TransformsTo B) items outs →
          (∀ out, out ∈ outs → store.batchSet targetCollectionName out.doc = none) →
          (∀ t, t < batchCount items.length →
            store.batchCommit t (batchDocs outs t) = none) →
          Event.warnSignupDate s
              ∈ (importJsonToFirestore B store jsonFilePath targetCollectionName
                  (Except.ok items)).log
          ∧ Event.migrationComplete items.length targetCollectionName
              ∈ (importJsonToFirestore B store jsonFilePath targetCollectionName
                  (Except.ok items)).log
          ∧ (tryBlock B store jsonFilePath targetCollectionName
              (Except.ok items)).thrown = none) := by
  have hconv := convertSignupDate_of_string B _ s hs hfield
  have hout : firestoreDocData B item = Except.ok (convertSignupDate B doc) :=
    (firestoreDocData_ok_iff B item _).mpr ⟨doc, hloop, rfl⟩
  refine ⟨hout, ?_, ?_, ?_, ?_, ?_⟩
  · intro t ht
    rw [hconv, ht]
    exact ⟨Doc.get_set_self _ _ _, rfl⟩
  · intro hnone
    rw [hconv, hnone]
    exact ⟨hfield, rfl⟩
  · intro k hk
    exact convertSignupDate_get_other B _ k hk
  · intro hnone store targetCollectionName rest batch st
    have hc2 : convertSignupDate B doc
        = { doc := doc, warnings := [Event.warnSignupDate s] } := by
      rw [hconv, hnone]
    rw [hc2] at hout
    simp only [stageLoop, hout]
  · intro hnone store jsonFilePath targetCollectionName items outs hin htr hset hc
    have hw : (convertSignupDate B doc).warnings = [Event.warnSignupDate s] := by
      rw [hconv, hnone]
    rw [importJsonToFirestore_resolved B store jsonFilePath targetCollectionName items outs
        htr hset hc,
      tryBlock_resolved B store jsonFilePath targetCollectionName items outs htr hset hc]
    refine ⟨?_, by simp, rfl⟩
    obtain ⟨out, hmem, hR⟩ := forall₂_mem_left _ items outs htr item hin
    have hR2 : firestoreDocData B item = Except.ok out := hR
    rw [hout] at hR2
    have heq : convertSignupDate B doc = out := Except.ok.inj hR2
    have hlen : outs.length = items.length := htr.length_eq.symm
    have hflat : out ∈ ((List.range (batchCount outs.length)).map
        (batchItems outs)).flatten := by
      rw [batchItems_flatten_count]
      exact hmem
    rw [hlen] at hflat
    simp only [List.mem_flatten, List.mem_map, List.mem_range] at hflat
    obtain ⟨l, ⟨t, ht, rfl⟩, hmem2⟩ := hflat
    have hstaged : Event.warnSignupDate s ∈ warningsOf (batchItems outs t) := by
      simp only [warningsOf, List.mem_flatten, List.mem_map]
      exact ⟨_, ⟨out, hmem2, rfl⟩, by rw [← heq, hw]; simp⟩
    have hlog := warnings_subset_loopLog outs items.length 0 _ t ht _ hstaged
    simp [hlog]

/-- Witness of C8: a signupDate whose text is not a date. -/
theorem C8_signupDate_conversion_witness :
    firestoreDocData sampleBuiltins [("signupDate", "\x7b\"S\":\"not a date\"\x7d")]
      = Except.ok (convertSignupDate sampleBuiltins
          [("signupDate", FieldVal.json (Json.str "not a date"))])
    ∧ (convertSignupDate sampleBuiltins
        [("signupDate", FieldVal.json (Json.str "not a date"))]).warnings
      = [Event.warnSignupDate "not a date"] :=
  ⟨(C8_signupDate_conversion sampleBuiltins
      [("signupDate", "\x7b\"S\":\"not a date\"\x7d")]
      [("signupDate", FieldVal.json (Json.str "not a date"))] "not a date" (by decide) rfl
      rfl).1,
   ((C8_signupDate_conversion sampleBuiltins
      [("signupDate", "\x7b\"S\":\"not a date\"\x7d")]
      [("signupDate", FieldVal.json (Json.str "not a date"))] "not a date" (by decide) rfl
      rfl).2.2.1 rfl).2⟩

end MigrateFirestore
